import Mathlib

/-!
Verification development for the micboard device simulators
(`simulators/shure_simulator.py` and `simulators/p10t_simulator.py`).

The Python sources are shallowly embedded: Python dicts become ordered
association lists (`alook` / `aset` / `adel` mirror lookup, assignment and
deletion, preserving insertion order as CPython dicts do), Python string
primitives (`str.strip`, `str.split`, `int`, `str(n)`, zero-padded
formatting) become the `py*` / `natToStr` / `padZero` functions, floating
point elapsed time becomes `ℚ`, and the asyncio task machinery becomes an
explicit small-step scheduler state (`Sched`).  Randomized draws
(`random.randint`, `random.choice`, ...) are abstracted as explicit input
parameters of the functions that consume them.
-/

namespace Micboard

/-! ## Python string primitives -/

/-- Whitespace characters recognized by Python `str.split()` / `str.strip()`. -/
def pyIsSpace (c : Char) : Bool :=
  c = ' ' || c = '\t' || c = '\n' || c = '\r' || c = '\x0b' || c = '\x0c'

/-- The character set stripped by `cmd.strip('<> \r\n')` in `process_command`. -/
def frameChars : List Char := ['<', '>', ' ', '\r', '\n']

/-- Python `str.strip(chars)`: remove the given characters from both ends. -/
def stripChars (cs : List Char) (l : List Char) : List Char :=
  ((l.dropWhile (fun c => c ∈ cs)).reverse.dropWhile (fun c => c ∈ cs)).reverse

/-- Python `str.strip()` (whitespace) on a character list. -/
def stripWS (l : List Char) : List Char :=
  ((l.dropWhile (fun c => pyIsSpace c)).reverse.dropWhile (fun c => pyIsSpace c)).reverse

/-- Python `str.strip()` on a `String`. -/
def pyStrip (s : String) : String := String.mk (stripWS s.toList)

/-- Helper for `splitWS`: accumulate the current token (reversed in `acc`). -/
def splitWSAux : List Char → List Char → List (List Char)
  | [], acc => if acc = [] then [] else [acc.reverse]
  | c :: rest, acc =>
    if pyIsSpace c then
      if acc = [] then splitWSAux rest []
      else acc.reverse :: splitWSAux rest []
    else splitWSAux rest (c :: acc)

/-- Python `str.split()` with no argument: split on whitespace runs, dropping
empty tokens. -/
def splitWS (l : List Char) : List (List Char) := splitWSAux l []

/-- Tokenization performed at the top of both `process_command` functions:
`cmd.strip('<> \r\n')` followed by `cmd.split()`. -/
def tokens (cmd : String) : List String :=
  (splitWS (stripChars frameChars cmd.toList)).map String.mk

/-- Decimal digit value of a character. -/
def digVal (c : Char) : ℕ := c.toNat - 48

/-- Helper for `pyInt`: parse a nonempty digit sequence, where a single
underscore may separate two digits (as Python `int` accepts). -/
def parseDigitsAux (acc : ℕ) : List Char → Option ℕ
  | [] => some acc
  | '_' :: c :: rest =>
    if c.isDigit then parseDigitsAux (acc * 10 + digVal c) rest else none
  | c :: rest =>
    if c.isDigit then parseDigitsAux (acc * 10 + digVal c) rest else none

/-- Parse a nonempty unsigned decimal literal in Python `int` syntax. -/
def parseDigits : List Char → Option ℕ
  | [] => none
  | '_' :: _ => none
  | c :: rest => if c.isDigit then parseDigitsAux (digVal c) rest else none

/-- Python `int(s)`: optional surrounding whitespace, optional sign, decimal
digits with optional single underscores between digits; `none` models the
`ValueError` raised on any other input. -/
def pyInt (s : String) : Option ℤ :=
  match stripWS s.toList with
  | '+' :: rest => (parseDigits rest).map (fun n => (n : ℤ))
  | '-' :: rest => (parseDigits rest).map (fun n => -(n : ℤ))
  | rest => (parseDigits rest).map (fun n => (n : ℤ))

/-- Decimal digit character for a value in `0..9`. -/
def digitChar : ℕ → Char
  | 0 => '0' | 1 => '1' | 2 => '2' | 3 => '3' | 4 => '4'
  | 5 => '5' | 6 => '6' | 7 => '7' | 8 => '8' | _ => '9'

/-- Fuel-driven digit expansion of a natural number (most significant first
once reversed onto `acc`). -/
def natToStrAux : ℕ → ℕ → List Char → List Char
  | 0, _, acc => acc
  | fuel + 1, n, acc =>
    let acc' := digitChar (n % 10) :: acc
    if n < 10 then acc' else natToStrAux fuel (n / 10) acc'

/-- Python `str(n)` for a nonnegative integer. -/
def natToStr (n : ℕ) : String := String.mk (natToStrAux (n + 1) n [])

/-- Python `str(i)` / `f-string` rendering of an `int`. -/
def intToStr (i : ℤ) : String :=
  if i < 0 then "-" ++ natToStr i.natAbs else natToStr i.toNat

/-- Python `f-string` zero-padded formatting `f'{n:0wd}'` for nonnegative `n`. -/
def padZero (w : ℕ) (n : ℕ) : String :=
  String.mk (List.replicate (w - (natToStr n).length) '0') ++ natToStr n

/-- Python `int(q / d)` for a rational elapsed time `q` and positive integer
divisor `d`: truncation toward zero of the exact quotient.  Written with
integer division on the numerator (`q.num / (q.den * d)` is `⌊q / d⌋`) so
the kernel can evaluate it; negating twice turns floor into the
ceiling-toward-zero Python uses for negative arguments. -/
def pyDivTrunc (q : ℚ) (d : ℕ) : ℤ :=
  if 0 ≤ q then q.num / (q.den * d : ℕ) else -((-q).num / ((-q).den * d : ℕ))

/-- Python `int(n / d)` for an integer `n` and positive integer `d` (true
division followed by `int()` truncation toward zero). -/
def pyDivTruncInt (n : ℤ) (d : ℕ) : ℤ :=
  if 0 ≤ n then n / d else -((-n) / d)

/-! ## Ordered association lists (CPython dict semantics) -/

/-- Dict lookup `d[k]` / `d.get(k)`: first (and, for dicts built through
`aset`, only) binding of the key. -/
def alook {κ β : Type} [DecidableEq κ] : List (κ × β) → κ → Option β
  | [], _ => none
  | (k, v) :: rest, k' => if k = k' then some v else alook rest k'

/-- Dict assignment `d[k] = v`: replace the value in place if the key is
present (keeping its insertion position), otherwise append a new binding. -/
def aset {κ β : Type} [DecidableEq κ] : List (κ × β) → κ → β → List (κ × β)
  | [], k, v => [(k, v)]
  | (k0, v0) :: rest, k, v =>
    if k0 = k then (k, v) :: rest else (k0, v0) :: aset rest k v

/-- Dict deletion `del d[k]`. -/
def adel {κ β : Type} [DecidableEq κ] : List (κ × β) → κ → List (κ × β)
  | [], _ => []
  | (k0, v0) :: rest, k =>
    if k0 = k then rest else (k0, v0) :: adel rest k

/-- Modify the value stored at a key in place (no-op if absent). -/
def amod {κ β : Type} [DecidableEq κ] : List (κ × β) → κ → (β → β) → List (κ × β)
  | [], _, _ => []
  | (k0, v0) :: rest, k, f =>
    if k0 = k then (k0, f v0) :: rest else (k0, v0) :: amod rest k f

/-- Dict membership `k in d`. -/
def amem {κ β : Type} [DecidableEq κ] (l : List (κ × β)) (k : κ) : Bool :=
  (alook l k).isSome

/-! ## Shared wire-format helpers -/

/-- A channel's register table: insertion-ordered mapping from register name
to string value (a Python dict in the source). -/
abbrev Regs : Type := List (String × String)

/-- Body of a `< REP ... >` response message: everything before the closing
`" >"`. -/
def mkRepCore (channel : ℤ) (key value : String) : String :=
  "< REP " ++ intToStr channel ++ " " ++ key ++ " " ++ value

/-- One `< REP {channel} {key} {value} >` response message, as formatted by
both simulators' `process_command`. -/
def mkRep (channel : ℤ) (key value : String) : String :=
  mkRepCore channel key value ++ " >"

/-- Body of the combined `< SAMPLE {ch} ALL {antenna} {rf:03d} {audio:03d} >`
message emitted by the Shure receiver's metering tick. -/
def sampleCore (channel : ℕ) (antenna : String) (rf audio : ℕ) : String :=
  "< SAMPLE " ++ natToStr channel ++ " ALL " ++ antenna ++ " " ++
    padZero 3 rf ++ " " ++ padZero 3 audio

/-- Body of the left-channel REP message of a P10T metering tick. -/
def p10tLeftCore (channel lvl : ℕ) : String :=
  "< REP " ++ natToStr channel ++ " AUDIO_IN_LVL_L " ++ natToStr lvl

/-- Body of the right-channel REP message of a P10T metering tick. -/
def p10tRightCore (channel lvl : ℕ) : String :=
  "< REP " ++ natToStr channel ++ " AUDIO_IN_LVL_R " ++ natToStr lvl

/-- The result tuple of `process_command` — `(response, channel, meter_rate)` —
together with the simulator state after the call (the Python method mutates
`self`; the embedding threads the state explicitly). -/
structure CmdOut (σ : Type) where
  response : Option String
  rchannel : Option ℤ
  rrate : Option ℤ
  sim : σ
deriving DecidableEq

/-! ## Shure QLXD receiver simulator (`shure_simulator.py`) -/

/-- Frequency presets (`FREQUENCIES` in `shure_simulator.py`). -/
def shureFREQUENCIES : List String :=
  ["470125", "476250", "482375", "488500", "494625",
   "500750", "506875", "513000", "519125", "525250"]

/-- Channel name presets (`CHANNEL_NAMES` in `shure_simulator.py`). -/
def shureCHANNEL_NAMES : List String :=
  ["Pastor", "Worship", "Backup", "Guest",
   "Choir L", "Choir R", "Podium", "Lectern",
   "HH-1", "HH-2", "LAV-1", "LAV-2"]

/-- The random draws made by `generate_default_state` and
`ChannelState.__init__` (`random.choice(TX_TYPES)`, `random.randint(0, 21)`,
`random.choice(['LOW','NORMAL','HIGH'])`, the 75% coin for `is_active`,
`random.uniform(0.3, 0.8)`, `random.randint(70, 100)`,
`random.randint(3, 5)` and `random.randint(120, 480)`), abstracted as
explicit inputs. -/
structure ShureDraw where
  txType : String
  txOffset : ℕ
  txRfPwr : String
  isActive : Bool
  audioActivity : ℚ
  rfBase : ℤ
  batteryStart : ℕ
  runtimeMinutes : ℕ
deriving DecidableEq

/-- Embeds `generate_default_state(channel)` of `shure_simulator.py`
(lines 32-77): the full default register dict, in source order. -/
def shure_generate_default_state (channel : ℕ) (d : ShureDraw) : Regs :=
  [("CHAN_NAME", shureCHANNEL_NAMES.getD ((channel - 1) % shureCHANNEL_NAMES.length) ""),
   ("FREQUENCY", shureFREQUENCIES.getD ((channel - 1) % shureFREQUENCIES.length) ""),
   ("GROUP_CHAN", padZero 2 channel ++ ",01"),
   ("BATT_BARS", "005"),
   ("BATT_CHARGE", "100"),
   ("BATT_CYCLE", "050"),
   ("BATT_HEALTH", "100"),
   ("BATT_RUN_TIME", "480"),
   ("BATT_TEMP_C", "025"),
   ("BATT_TEMP_F", "077"),
   ("BATT_TYPE", "LION"),
   ("RF_ANTENNA", "AB"),
   ("RF_INT_DET", "NONE"),
   ("RX_RF_LVL", "080"),
   ("AUDIO_LVL", "000"),
   ("TX_TYPE", d.txType),
   ("TX_OFFSET", padZero 3 d.txOffset),
   ("TX_RF_PWR", d.txRfPwr),
   ("TX_MUTE_STATUS", "OFF"),
   ("TX_LOCK", "OFF"),
   ("TX_MENU_LOCK", "OFF"),
   ("TX_PWR_LOCK", "OFF"),
   ("ENCRYPTION", "OFF"),
   ("ENCRYPTION_STATUS", "OK"),
   ("FW_VER", "2.4.23"),
   ("DEVICE_ID", "QLXD-SIM-" ++ natToStr channel),
   ("AUDIO_GAIN", "000"),
   ("AUDIO_MUTE", "OFF"),
   ("AUDIO_OUT_LVL_SW", "MIC")]

/-- State of one Shure channel (`ChannelState` in `shure_simulator.py`). -/
structure SChan where
  channel : ℕ
  regs : Regs
  is_active : Bool
  audio_activity : ℚ
  rf_base : ℤ
  battery_start : ℕ
  runtime_minutes : ℕ
  antenna_states : List String
  current_antenna : String
deriving DecidableEq

/-- Embeds `ChannelState.__init__` (lines 83-99): default state plus the
battery draw overrides `state['BATT_BARS']` and `state['BATT_RUN_TIME']`. -/
def SChan.init (channel : ℕ) (d : ShureDraw) : SChan :=
  let regs0 := shure_generate_default_state channel d
  let regs1 := aset regs0 "BATT_BARS" (padZero 3 d.batteryStart)
  let regs2 := aset regs1 "BATT_RUN_TIME" (padZero 5 d.runtimeMinutes)
  { channel := channel
    regs := regs2
    is_active := d.isActive
    audio_activity := d.audioActivity
    rf_base := d.rfBase
    battery_start := d.batteryStart
    runtime_minutes := d.runtimeMinutes
    antenna_states := ["AB", "AB", "AB", "AX", "XB"]
    current_antenna := "AB" }

/-- Discrete battery bar level after `elapsed` seconds
(`update_battery` lines 103-106): one bar drained per 7200 s, floored at 0. -/
def battBars (battery_start : ℕ) (elapsed : ℚ) : ℤ :=
  max 0 ((battery_start : ℤ) - pyDivTrunc elapsed 7200)

/-- Remaining runtime minutes after `elapsed` seconds
(`update_battery` lines 108-111): start minutes minus elapsed minutes,
floored at 0. -/
def battRemaining (runtime_minutes : ℕ) (elapsed : ℚ) : ℤ :=
  max 0 ((runtime_minutes : ℤ) - pyDivTrunc elapsed 60)

/-- Charge percentage derived from the current bar level
(`update_battery` lines 113-114): `int(100 * current_bars / 5)`. -/
def battCharge (battery_start : ℕ) (elapsed : ℚ) : ℤ :=
  pyDivTruncInt (100 * battBars battery_start elapsed) 5

/-- Embeds `ChannelState.update_battery(elapsed_seconds)` (lines 101-115):
recompute the three battery registers from elapsed time. -/
def SChan.update_battery (cs : SChan) (elapsed : ℚ) : SChan :=
  let regs1 := aset cs.regs "BATT_BARS"
    (padZero 3 (battBars cs.battery_start elapsed).toNat)
  let regs2 := aset regs1 "BATT_RUN_TIME"
    (padZero 5 (battRemaining cs.runtime_minutes elapsed).toNat)
  let regs3 := aset regs2 "BATT_CHARGE"
    (padZero 3 (battCharge cs.battery_start elapsed).toNat)
  { cs with regs := regs3 }

/-- The random draws made by one call of `get_sample_values`
(lines 117-138), abstracted as inputs: the 5% antenna-switch coin, the
`random.choice(antenna_states)` index, `random.randint(-10, 5)` for the RF
variation, and the audio level produced by the activity branches (always a
nonnegative int in the source). -/
structure SampleDraw where
  switch : Bool
  pick : ℕ
  rfVar : ℤ
  audio : ℕ
deriving DecidableEq

/-- Embeds `ChannelState.get_sample_values` (lines 117-138): possibly switch
the antenna, clamp the RF level into `[20, 115]` around `rf_base`, and draw
an audio level; returns `(antenna, rf_level, audio_level)` and the updated
channel (the randomized audio branches are abstracted into `d.audio`). -/
def SChan.get_sample_values (cs : SChan) (d : SampleDraw) :
    (String × ℤ × ℕ) × SChan :=
  let ant := if d.switch then cs.antenna_states.getD d.pick cs.current_antenna
             else cs.current_antenna
  let rf_level := max 20 (min 115 (cs.rf_base + d.rfVar))
  let audio_level := d.audio
  ((ant, rf_level, audio_level), { cs with current_antenna := ant })

/-- The Shure simulator (`ShureSimulator.__init__` lines 144-159): channel
states and the per-channel meter-rate dict (keyed by channel number only —
shared across all client connections). -/
structure ShureSim where
  device_id : String
  num_channels : ℕ
  channels : List (ℕ × SChan)
  meter_rate : List (ℕ × ℤ)
deriving DecidableEq

/-- Embeds `ShureSimulator.__init__(device_id, channels)`: channel states
for `1..channels` and meter rate 0 for each. -/
def ShureSim.init (device_id : String) (n : ℕ) (draws : ℕ → ShureDraw) :
    ShureSim :=
  { device_id := device_id
    num_channels := n
    channels := (List.range' 1 n).map (fun ch => (ch, SChan.init ch (draws ch)))
    meter_rate := (List.range' 1 n).map (fun ch => (ch, 0)) }

/-- Embeds `ShureSimulator.get_state(channel)` (lines 161-170): update the
channel's time-based battery registers and return its (live) register dict;
`{}` for an unknown channel.  `elapsed` stands for
`time.time() - self.start_time`. -/
def ShureSim.get_state (sim : ShureSim) (channel : ℕ) (elapsed : ℚ) :
    Regs × ShureSim :=
  match alook sim.channels channel with
  | none => ([], sim)
  | some cs =>
    let cs' := cs.update_battery elapsed
    (cs'.regs, { sim with channels := aset sim.channels channel cs' })

/-- Embeds `ShureSimulator.process_command(cmd)` (lines 172-225) faithfully,
branch for branch; `elapsed` stands for the wall-clock offset read inside
`get_state`. -/
def ShureSim.process_command (sim : ShureSim) (elapsed : ℚ) (cmd : String) :
    CmdOut ShureSim :=
  let parts := tokens cmd
  if parts.length < 3 then ⟨none, none, none, sim⟩
  else
    let action := parts.getD 0 ""
    let channel_str := parts.getD 1 ""
    let param := parts.getD 2 ""
    match pyInt channel_str with
    | none => ⟨none, none, none, sim⟩
    | some channel =>
      if channel < 1 ∨ (sim.num_channels : ℤ) < channel then ⟨none, none, none, sim⟩
      else
        let sp := sim.get_state channel.toNat elapsed
        let state := sp.1
        let sim1 := sp.2
        if action = "GET" then
          if param = "ALL" then
            ⟨some (String.join (state.map (fun kv => mkRep channel kv.1 kv.2))),
             none, none, sim1⟩
          else
            match alook state param with
            | some value => ⟨some (mkRep channel param value), none, none, sim1⟩
            | none => ⟨none, none, none, sim1⟩
        else if action = "SET" then
          if 4 ≤ parts.length then
            let value := String.intercalate " " (parts.drop 3)
            if param = "METER_RATE" then
              match pyInt value with
              | some rate =>
                ⟨some (mkRep channel param value), some channel, some rate,
                 { sim1 with meter_rate := aset sim1.meter_rate channel.toNat rate }⟩
              | none => ⟨none, none, none, sim1⟩
            else
              let sim2 :=
                match alook sim1.channels channel.toNat with
                | some cs =>
                  let cs2 := { cs with regs := aset cs.regs param value }
                  { sim1 with channels := aset sim1.channels channel.toNat cs2 }
                | none => sim1
              ⟨some (mkRep channel param value), none, none, sim2⟩
          else ⟨none, none, none, sim1⟩
        else ⟨none, none, none, sim1⟩

/-- Embeds `ShureSimulator.generate_sample(channel)` (lines 227-236): one
combined `< SAMPLE {ch} ALL {antenna} {rf:03d} {audio:03d} >` message. -/
def ShureSim.generate_sample (sim : ShureSim) (channel : ℕ) (d : SampleDraw) :
    String × ShureSim :=
  match alook sim.channels channel with
  | none => ("< SAMPLE " ++ natToStr channel ++ " ALL XX 000 000 >", sim)
  | some cs =>
    let r := cs.get_sample_values d
    ("< SAMPLE " ++ natToStr channel ++ " ALL " ++ r.1.1 ++ " " ++
       padZero 3 r.1.2.1.toNat ++ " " ++ padZero 3 r.1.2.2 ++ " >",
     { sim with channels := aset sim.channels channel r.2 })

/-! ## P10T / PSM1000 IEM transmitter simulator (`p10t_simulator.py`) -/

/-- Frequency presets (`FREQUENCIES` in `p10t_simulator.py`). -/
def p10tFREQUENCIES : List String :=
  ["518000", "520250", "522500", "524750", "527000",
   "529250", "531500", "533750", "536000", "538250"]

/-- Channel name presets (`CHANNEL_NAMES` in `p10t_simulator.py`). -/
def p10tCHANNEL_NAMES : List String :=
  ["IEM 1", "IEM 2", "IEM 3", "IEM 4",
   "Drums", "Bass", "Keys", "Guitar",
   "Lead Vox", "BGV 1", "BGV 2", "MD"]

/-- Embeds `generate_default_state(channel)` of `p10t_simulator.py`
(lines 31-39); this one involves no randomness. -/
def p10t_generate_default_state (channel : ℕ) : Regs :=
  [("CHAN_NAME", p10tCHANNEL_NAMES.getD ((channel - 1) % p10tCHANNEL_NAMES.length) ""),
   ("FREQUENCY", p10tFREQUENCIES.getD ((channel - 1) % p10tFREQUENCIES.length) ""),
   ("TX_OFFSET", "000"),
   ("AUDIO_IN_LVL_L", "0"),
   ("AUDIO_IN_LVL_R", "0")]

/-- State of one P10T channel (`ChannelState` in `p10t_simulator.py`);
`activity_pattern` and `base_level` are the `__init__` random draws. -/
structure PChan where
  channel : ℕ
  regs : Regs
  activity_pattern : String
  base_level : ℕ
deriving DecidableEq

/-- Embeds `ChannelState.__init__` of `p10t_simulator.py` (lines 45-51). -/
def PChan.init (channel : ℕ) (activity_pattern : String) (base_level : ℕ) :
    PChan :=
  { channel := channel
    regs := p10t_generate_default_state channel
    activity_pattern := activity_pattern
    base_level := base_level }

/-- Embeds `ChannelState.generate_audio_levels` (lines 53-95).  The
randomized branch logic (silent / intermittent / active, variance, peaks) is
abstracted: `draw` supplies the final left/right levels it produces, which
the source guarantees are nonnegative ints.  The function stores their
decimal renderings in the register dict and returns them, exactly as the
source does. -/
def PChan.generate_audio_levels (cs : PChan) (draw : ℕ × ℕ) :
    (ℕ × ℕ) × PChan :=
  let regs1 := aset cs.regs "AUDIO_IN_LVL_L" (natToStr draw.1)
  let regs2 := aset regs1 "AUDIO_IN_LVL_R" (natToStr draw.2)
  (draw, { cs with regs := regs2 })

/-- The P10T simulator (`P10TSimulator.__init__` lines 101-115). -/
structure P10TSim where
  device_id : String
  num_channels : ℕ
  channels : List (ℕ × PChan)
  meter_rate : List (ℕ × ℤ)
deriving DecidableEq

/-- Embeds `P10TSimulator.__init__(device_id, channels)`. -/
def P10TSim.init (device_id : String) (n : ℕ)
    (patterns : ℕ → String) (bases : ℕ → ℕ) : P10TSim :=
  { device_id := device_id
    num_channels := n
    channels := (List.range' 1 n).map
      (fun ch => (ch, PChan.init ch (patterns ch) (bases ch)))
    meter_rate := (List.range' 1 n).map (fun ch => (ch, 0)) }

/-- Embeds `P10TSimulator.get_state(channel)` (lines 117-121). -/
def P10TSim.get_state (sim : P10TSim) (channel : ℕ) : Regs :=
  match alook sim.channels channel with
  | none => []
  | some cs => cs.regs

/-- Regenerate the audio levels of a channel and store the updated channel
back, as `self.channels[channel].generate_audio_levels()` does. -/
def P10TSim.regen (sim : P10TSim) (channel : ℕ) (draw : ℕ × ℕ) : P10TSim :=
  match alook sim.channels channel with
  | none => sim
  | some cs => { sim with channels := aset sim.channels channel (cs.generate_audio_levels draw).2 }

/-- Embeds `P10TSimulator.process_command(cmd)` (lines 123-182), branch for
branch; `draw` supplies the audio levels drawn if the command triggers
`generate_audio_levels`. -/
def P10TSim.process_command (sim : P10TSim) (draw : ℕ × ℕ) (cmd : String) :
    CmdOut P10TSim :=
  let parts := tokens cmd
  if parts.length < 3 then ⟨none, none, none, sim⟩
  else
    let action := parts.getD 0 ""
    let channel_str := parts.getD 1 ""
    let param := parts.getD 2 ""
    match pyInt channel_str with
    | none => ⟨none, none, none, sim⟩
    | some channel =>
      if channel < 1 ∨ (sim.num_channels : ℤ) < channel then ⟨none, none, none, sim⟩
      else
        let state := sim.get_state channel.toNat
        if action = "GET" then
          if param = "ALL" then
            let sim1 := sim.regen channel.toNat draw
            let state1 := sim1.get_state channel.toNat
            ⟨some (String.join (state1.map (fun kv => mkRep channel kv.1 kv.2))),
             none, none, sim1⟩
          else if amem state param then
            if param = "AUDIO_IN_LVL_L" ∨ param = "AUDIO_IN_LVL_R" then
              let sim1 := sim.regen channel.toNat draw
              let state1 := sim1.get_state channel.toNat
              -- the lookup cannot miss: generate_audio_levels stores both keys
              let value := (alook state1 param).getD ""
              ⟨some (mkRep channel param value), none, none, sim1⟩
            else
              let value := (alook state param).getD ""
              ⟨some (mkRep channel param value), none, none, sim⟩
          else ⟨none, none, none, sim⟩
        else if action = "SET" then
          if 4 ≤ parts.length then
            let value := String.intercalate " " (parts.drop 3)
            if param = "METER_RATE" then
              match pyInt value with
              | some rate =>
                ⟨some (mkRep channel param value), some channel, some rate,
                 { sim with meter_rate := aset sim.meter_rate channel.toNat rate }⟩
              | none => ⟨none, none, none, sim⟩
            else
              let sim2 :=
                if amem state param then
                  match alook sim.channels channel.toNat with
                  | some cs =>
                    let cs2 := { cs with regs := aset cs.regs param value }
                    { sim with channels := aset sim.channels channel.toNat cs2 }
                  | none => sim
                else sim
              ⟨some (mkRep channel param value), none, none, sim2⟩
          else ⟨none, none, none, sim⟩
        else ⟨none, none, none, sim⟩

/-- Embeds `P10TSimulator.generate_meter_messages(channel)` (lines 184-196):
two back-to-back REP messages, left then right. -/
def P10TSim.generate_meter_messages (sim : P10TSim) (channel : ℕ)
    (draw : ℕ × ℕ) : String × P10TSim :=
  match alook sim.channels channel with
  | none => ("", sim)
  | some cs =>
    let r := cs.generate_audio_levels draw
    ("< REP " ++ natToStr channel ++ " AUDIO_IN_LVL_L " ++ natToStr r.1.1 ++ " >" ++
       "< REP " ++ natToStr channel ++ " AUDIO_IN_LVL_R " ++ natToStr r.1.2 ++ " >",
     { sim with channels := aset sim.channels channel r.2 })

/-! ## Metering scheduler model

The asyncio task machinery of `ShureSimulator.start_metering`,
`meter_loop`, `stop_all_metering` and `handle_client`
(`shure_simulator.py` lines 238-318; `p10t_simulator.py` lines 198-278 are
line-for-line identical in control structure) is modelled as a small-step
state machine.  The event loop is single threaded, so the synchronous
bodies of `start_metering` / `stop_all_metering` and one resumption of a
`meter_loop` task (wake from `asyncio.sleep`, check, write, reach the next
await) are the atomic steps.  `Task.cancel()` marks the task so that its
next resumption raises `CancelledError`, which `meter_loop` catches and
dies on without writing; the model's `cancelled` flag reproduces exactly
that: a step of a cancelled task performs no emission. -/

/-- One metering task (an `asyncio.Task` running `meter_loop`). -/
structure MTask where
  sess : ℕ
  chan : ℕ
  cancelled : Bool
  finished : Bool
deriving DecidableEq

/-- Observable effects, in program order: a metering message written by a
task, a `task.cancel()` call, a socket release (`writer.close()`). -/
inductive Eff where
  | emit (tid : ℕ)
  | cancelT (tid : ℕ)
  | sockClose (sess : ℕ)
deriving DecidableEq

/-- Scheduler state: the shared per-channel `meter_rate` dict, all task
records ever created (an `asyncio.Task` object outlives its removal from
the registry), the `metering_tasks` registry (dict keyed by writer, holding
a dict keyed by channel — exactly the source's
`dict[StreamWriter, dict[int, Task]]`), the id for the next created task,
and the effect log. -/
structure Sched where
  rates : List (ℕ × ℤ)
  tasks : List (ℕ × MTask)
  registry : List (ℕ × List (ℕ × ℕ))
  nextId : ℕ
  log : List Eff
deriving DecidableEq

/-- The scheduler state of a freshly constructed simulator. -/
def Sched.start (rates : List (ℕ × ℤ)) : Sched :=
  { rates := rates, tasks := [], registry := [], nextId := 0, log := [] }

/-- Mark a task cancelled (`task.cancel()`); the record keeps its place. -/
def cancelTask (l : List (ℕ × MTask)) (tid : ℕ) : List (ℕ × MTask) :=
  amod l tid (fun t => { t with cancelled := true })

/-- Mark a task finished (its coroutine returned or died). -/
def finishTask (l : List (ℕ × MTask)) (tid : ℕ) : List (ℕ × MTask) :=
  amod l tid (fun t => { t with finished := true })

/-- Cancel every task in a list of ids, in order, logging each `cancel()`. -/
def Sched.cancelAll (st : Sched) : List ℕ → Sched
  | [] => st
  | tid :: rest =>
    Sched.cancelAll
      { st with tasks := cancelTask st.tasks tid, log := st.log ++ [Eff.cancelT tid] }
      rest

/-- Registry lookup for a (session, channel) pair:
`self.metering_tasks[writer][channel]`. -/
def alook2 (r : List (ℕ × List (ℕ × ℕ))) (sess chan : ℕ) : Option ℕ :=
  match alook r sess with
  | none => none
  | some inner => alook inner chan

/-- First section of `start_metering` (lines 266-268): initialize the
writer's task dict if needed. -/
def Sched.ensure_sess (st : Sched) (sess : ℕ) : Sched :=
  if (alook st.registry sess).isSome then st
  else { st with registry := st.registry ++ [(sess, [])] }

/-- Second section of `start_metering` (lines 270-273): cancel the existing
task for this channel, if any, and delete its registry entry. -/
def Sched.cancel_existing (st : Sched) (sess chan : ℕ) : Sched :=
  match alook2 st.registry sess chan with
  | none => st
  | some tid =>
    { st with
        tasks := cancelTask st.tasks tid
        registry := amod st.registry sess (fun d => adel d chan)
        log := st.log ++ [Eff.cancelT tid] }

/-- Third section of `start_metering` (lines 275-278): create the new
`meter_loop` task and register it. -/
def Sched.create_task (st : Sched) (sess chan : ℕ) : Sched :=
  { st with
      tasks := st.tasks ++ [(st.nextId, ⟨sess, chan, false, false⟩)]
      registry := amod st.registry sess (fun d => aset d chan st.nextId)
      nextId := st.nextId + 1 }

/-- Embeds `ShureSimulator.start_metering(writer, channel, rate)`
(lines 259-278): ensure the writer's task dict exists, cancel and drop any
existing task for the channel, then create and register a new task when
`rate > 0`. -/
def Sched.start_metering (st : Sched) (sess chan : ℕ) (rate : ℤ) : Sched :=
  let st2 := (st.ensure_sess sess).cancel_existing sess chan
  if 0 < rate then st2.create_task sess chan else st2

/-- Embeds `ShureSimulator.stop_all_metering(writer)` (lines 280-285):
cancel every task in the writer's dict (in insertion order) and delete the
writer's entry. -/
def Sched.stop_all_metering (st : Sched) (sess : ℕ) : Sched :=
  match alook st.registry sess with
  | none => st
  | some inner =>
    let st1 := st.cancelAll (inner.map Prod.snd)
    { st1 with registry := adel st1.registry sess }

/-- One resumption of a `meter_loop(writer, channel, interval)` task
(lines 238-257): wake from `asyncio.sleep`; a pending `cancel()` raises
`CancelledError`, which is caught and ends the loop with no write;
otherwise re-read the shared `self.meter_rate[channel]` and break on 0
(a missing key would raise `KeyError` and likewise kill the task without a
write); otherwise write one metering message and sleep again. -/
def Sched.meter_step (st : Sched) (tid : ℕ) : Sched :=
  match alook st.tasks tid with
  | none => st
  | some t =>
    if t.finished then st
    else if t.cancelled then { st with tasks := finishTask st.tasks tid }
    else
      match alook st.rates t.chan with
      | none => { st with tasks := finishTask st.tasks tid }
      | some r =>
        if r = 0 then { st with tasks := finishTask st.tasks tid }
        else { st with log := st.log ++ [Eff.emit tid] }

/-- Release the session's socket (`writer.close()` in `handle_client`). -/
def Sched.sock_close (st : Sched) (sess : ℕ) : Sched :=
  { st with log := st.log ++ [Eff.sockClose sess] }

/-- The teardown performed by `handle_client`'s `finally:` block
(lines 314-318) on end-of-stream or I/O error: `stop_all_metering(writer)`
first, then `writer.close()`. -/
def Sched.teardown (st : Sched) (sess : ℕ) : Sched :=
  (st.stop_all_metering sess).sock_close sess

/-- Scheduler-visible events: a session's command loop processes
`SET chan METER_RATE rate` (which stores the rate in the shared dict —
`process_command` line 215 — and then calls `start_metering` —
`handle_client` lines 310-311), a metering task resumes, or a session's
connection ends. -/
inductive Ev where
  | setCmd (sess : ℕ) (chan : ℕ) (rate : ℤ)
  | taskStep (tid : ℕ)
  | disconnect (sess : ℕ)
deriving DecidableEq

/-- Apply one event. -/
def Sched.applyEv (st : Sched) : Ev → Sched
  | Ev.setCmd sess chan rate =>
    Sched.start_metering { st with rates := aset st.rates chan rate } sess chan rate
  | Ev.taskStep tid => st.meter_step tid
  | Ev.disconnect sess => st.teardown sess

/-- Run a sequence of events. -/
def Sched.run (st : Sched) : List Ev → Sched
  | [] => st
  | e :: rest => Sched.run (st.applyEv e) rest

/-- A task that can still write: neither cancelled nor finished. -/
def liveT (t : MTask) : Prop := t.cancelled = false ∧ t.finished = false

instance (t : MTask) : Decidable (liveT t) := by
  unfold liveT
  exact inferInstance

/-- The task with this id can emit no further message: it has no record, or
its record is cancelled or finished. -/
def Sched.deadAt (st : Sched) (tid : ℕ) : Prop :=
  ∀ t, alook st.tasks tid = some t → (t.cancelled = true ∨ t.finished = true)

/-- Number of metering messages the task with this id has written. -/
def countEmit (st : Sched) (tid : ℕ) : ℕ := st.log.count (Eff.emit tid)

/-- Scheduler invariant: (1) task ids are below the allocation counter;
(2) task ids are unique; (3) every live task is the one registered for its
(session, channel) pair; (4) every registered id has a task record;
(5) registry keys are unique; (6) each per-session dict has unique keys. -/
def Sched.Inv (st : Sched) : Prop :=
  (∀ p ∈ st.tasks, p.1 < st.nextId) ∧
  (st.tasks.map Prod.fst).Nodup ∧
  (∀ p ∈ st.tasks, liveT p.2 → alook2 st.registry p.2.sess p.2.chan = some p.1) ∧
  (∀ q ∈ st.registry, ∀ e ∈ q.2, (alook st.tasks e.2).isSome) ∧
  (st.registry.map Prod.fst).Nodup ∧
  (∀ q ∈ st.registry, (q.2.map Prod.fst).Nodup)

instance (st : Sched) : Decidable st.Inv := by
  unfold Sched.Inv
  exact inferInstance

/-- At most one live metering task exists per (session, channel) pair. -/
def Sched.oneLivePerPair (st : Sched) : Prop :=
  ∀ p ∈ st.tasks, ∀ q ∈ st.tasks, liveT p.2 → liveT q.2 →
    p.2.sess = q.2.sess → p.2.chan = q.2.chan → p.1 = q.1

/-! ## Wire-stream recovery (the micboard framing contract)

`handle_client` (and the real micboard client) recovers individual messages
from a byte stream by splitting on `'>'`, stripping each fragment, and
dropping empties (`shure_simulator.py` lines 302-304). -/

/-- Python `s.split('>')` accumulator. -/
def splitGtAux : List Char → List Char → List (List Char)
  | [], acc => [acc.reverse]
  | c :: rest, acc =>
    if c = '>' then acc.reverse :: splitGtAux rest []
    else splitGtAux rest (c :: acc)

/-- Python `s.split('>')`. -/
def splitGt (s : String) : List (List Char) := splitGtAux s.toList []

/-- The messages a receiver recovers from a stream fragment: split on `'>'`,
strip each piece, keep the nonempty ones (each then stands for one
`piece + '>'` message). -/
def recoverMsgs (s : String) : List String :=
  ((splitGt s).map (fun l => String.mk (stripWS l))).filter (fun t => !(t = ""))

/-- A string free of the `'>'` frame terminator. -/
def noGtB (s : String) : Bool := s.toList.all (fun c => !(c = '>'))

/-- A register key or value that round-trips through the wire format:
nonempty, free of `'>'`, and with non-whitespace first and last characters
(interior spaces are fine — e.g. the channel name `Choir L`). -/
def cleanValB (s : String) : Bool :=
  !(s.toList = []) && noGtB s &&
    !(pyIsSpace (s.toList.headD 'x')) && !(pyIsSpace (s.toList.getLastD 'x'))

/-- A register table whose keys and values all round-trip. -/
def regsCleanB (rs : Regs) : Bool :=
  rs.all (fun kv => cleanValB kv.1 && cleanValB kv.2)

/-! ## Spec-side definitions

These follow the wording of the specification (not the code); they exist to
compare the spec's claims against the embedded code. -/

/-- The no-op cases as the spec enumerates them (spec §4.1): fewer than 3
tokens; non-numeric channel; channel outside `1..N`; action not in
{GET, SET}; SET with fewer than 4 tokens; non-numeric value when PARAM is
the meter-rate register. -/
def specListedNoOp (numChannels : ℕ) (cmd : String) : Bool :=
  let parts := tokens cmd
  decide (parts.length < 3) ||
  (match pyInt (parts.getD 1 "") with
   | none => true
   | some channel =>
     decide (channel < 1) || decide ((numChannels : ℤ) < channel) ||
     (!(parts.getD 0 "" = "GET") && !(parts.getD 0 "" = "SET")) ||
     ((parts.getD 0 "" = "SET") && decide (parts.length < 4)) ||
     ((parts.getD 0 "" = "SET") && (parts.getD 2 "" = "METER_RATE") &&
       decide (4 ≤ parts.length) &&
       (pyInt (String.intercalate " " (parts.drop 3))).isNone))

/-- The additional silent-drop case the code has beyond the spec's list: a
GET whose parameter is neither `ALL` nor a register present in the
addressed channel's state (the state the code checks — battery-updated for
the Shure simulator). -/
def getUnknownParam (stateRegs : Regs) (cmd : String) : Bool :=
  let parts := tokens cmd
  (parts.getD 0 "" = "GET") && !(parts.getD 2 "" = "ALL") &&
    !(amem stateRegs (parts.getD 2 ""))

/-- The register dict `ShureSimulator.process_command` dispatches on for a
given command: the channel's registers after the `get_state` battery
update, `[]` when the channel object is missing. -/
def shureStateRegs (sim : ShureSim) (elapsed : ℚ) (channel : ℕ) : Regs :=
  (sim.get_state channel elapsed).1

/-- The register dict the Shure dispatcher consults for a given command: the
battery-updated state of the addressed channel when the channel token parses
(`[]` otherwise; that case is already covered by the listed no-ops). -/
def shureCmdRegs (sim : ShureSim) (elapsed : ℚ) (cmd : String) : Regs :=
  match pyInt ((tokens cmd).getD 1 "") with
  | none => []
  | some channel => shureStateRegs sim elapsed channel.toNat

/-- The register dict the P10T dispatcher consults for a given command: the
addressed channel's plain register table. -/
def p10tCmdRegs (sim : P10TSim) (cmd : String) : Regs :=
  match pyInt ((tokens cmd).getD 1 "") with
  | none => []
  | some channel => sim.get_state channel.toNat

/-- Spec-functional-dependence reading of the battery-runtime sentence: the
remaining-runtime register is recomputed from the discrete bar level, i.e.
it is a function of that level. -/
def runtimeFnOfLevel (battery_start runtime_minutes : ℕ) : Prop :=
  ∀ t1 t2 : ℚ, battBars battery_start t1 = battBars battery_start t2 →
    battRemaining runtime_minutes t1 = battRemaining runtime_minutes t2

/-! ## Example states (used by witnesses and counterexamples) -/

/-- A fixed draw for Shure example channels. -/
def shureDrawEx : ShureDraw :=
  { txType := "QLXD1", txOffset := 5, txRfPwr := "NORMAL", isActive := true
    audioActivity := 1, rfBase := 80, batteryStart := 4, runtimeMinutes := 300 }

/-- A concrete two-channel Shure simulator instance. -/
def shureSimEx : ShureSim := ShureSim.init "QLXD-SIM" 2 (fun _ => shureDrawEx)

/-- A concrete two-channel P10T simulator instance. -/
def p10tSimEx : P10TSim := P10TSim.init "P10T-SIM" 2 (fun _ => "active") (fun _ => 500000)

/-- A scheduler state with one live metering task (id 0) for session 1,
channel 1: the state after one `SET 1 METER_RATE 500` on a fresh
simulator. -/
def schedEx : Sched :=
  (Sched.start [(1, 0), (2, 0)]).run [Ev.setCmd 1 1 500]

/-- A scheduler state with live tasks for two different sessions on the same
channel 1 (sessions 1 and 2, task ids 0 and 1). -/
def schedEx2 : Sched :=
  (Sched.start [(1, 0), (2, 0)]).run [Ev.setCmd 1 1 500, Ev.setCmd 2 1 800]

/-- Presence of a task record. -/
def presL (l : List (ℕ × MTask)) (tid : ℕ) : Prop := (alook l tid).isSome

/-- List-level deadness: any record for `tid` is cancelled or finished. -/
def deadL (l : List (ℕ × MTask)) (tid : ℕ) : Prop :=
  ∀ t, alook l tid = some t → (t.cancelled = true ∨ t.finished = true)

/-- `PD st tid`: the task record exists and is dead. -/
def PD (st : Sched) (tid : ℕ) : Prop := presL st.tasks tid ∧ deadL st.tasks tid

/-! ## Association-list lemmas -/

theorem alook_aset_self {κ β : Type} [DecidableEq κ] (l : List (κ × β)) (k : κ) (v : β) :
    alook (aset l k v) k = some v := by
  induction l with
  | nil => simp [aset, alook]
  | cons p rest ih =>
    by_cases h : p.1 = k
    · simp [aset, alook, h]
    · simp [aset, alook, h, ih]

theorem alook_aset_ne {κ β : Type} [DecidableEq κ] (l : List (κ × β)) (k k' : κ) (v : β)
    (h : k ≠ k') : alook (aset l k v) k' = alook l k' := by
  induction l with
  | nil => simp [aset, alook, h]
  | cons p rest ih =>
    by_cases hp : p.1 = k
    · simp [aset, alook, hp, h]
    · simp [aset, alook, hp, ih]

theorem alook_adel_ne {κ β : Type} [DecidableEq κ] (l : List (κ × β)) (k k' : κ)
    (h : k ≠ k') : alook (adel l k) k' = alook l k' := by
  induction l with
  | nil => simp [adel]
  | cons p rest ih =>
    by_cases hp : p.1 = k
    · simp [adel, alook, hp, h]
    · simp [adel, alook, hp, ih]

theorem alook_amod_self {κ β : Type} [DecidableEq κ] (l : List (κ × β)) (k : κ) (f : β → β) :
    alook (amod l k f) k = (alook l k).map f := by
  induction l with
  | nil => simp [amod, alook]
  | cons p rest ih =>
    by_cases hp : p.1 = k
    · simp [amod, alook, hp]
    · simp [amod, alook, hp, ih]

theorem alook_amod_ne {κ β : Type} [DecidableEq κ] (l : List (κ × β)) (k k' : κ) (f : β → β)
    (h : k ≠ k') : alook (amod l k f) k' = alook l k' := by
  induction l with
  | nil => simp [amod]
  | cons p rest ih =>
    by_cases hp : p.1 = k
    · simp [amod, alook, hp, h]
    · simp [amod, alook, hp, ih]

theorem alook_append_some {κ β : Type} [DecidableEq κ] (l₁ l₂ : List (κ × β)) (k : κ) (v : β)
    (h : alook l₁ k = some v) : alook (l₁ ++ l₂) k = some v := by
  induction l₁ with
  | nil => simp [alook] at h
  | cons p rest ih =>
    by_cases hp : p.1 = k
    · simpa [alook, hp] using h
    · simp [alook, hp] at h ⊢
      exact ih h

theorem alook_append_none {κ β : Type} [DecidableEq κ] (l₁ l₂ : List (κ × β)) (k : κ)
    (h : alook l₁ k = none) : alook (l₁ ++ l₂) k = alook l₂ k := by
  induction l₁ with
  | nil => simp
  | cons p rest ih =>
    by_cases hp : p.1 = k
    · simp [alook, hp] at h
    · simp [alook, hp] at h ⊢
      exact ih h

theorem mem_of_alook {κ β : Type} [DecidableEq κ] (l : List (κ × β)) (k : κ) (v : β)
    (h : alook l k = some v) : (k, v) ∈ l := by
  induction l with
  | nil => simp [alook] at h
  | cons p rest ih =>
    obtain ⟨a, b⟩ := p
    by_cases hp : a = k
    · simp only [alook, if_pos hp] at h
      subst hp
      rw [Option.some_inj] at h
      exact h ▸ List.mem_cons_self _ _
    · simp only [alook, if_neg hp] at h
      exact List.mem_cons_of_mem _ (ih h)

theorem alook_of_mem_nodup {κ β : Type} [DecidableEq κ] (l : List (κ × β)) (k : κ) (v : β)
    (hnd : (l.map Prod.fst).Nodup) (h : (k, v) ∈ l) : alook l k = some v := by
  induction l with
  | nil => simp at h
  | cons p rest ih =>
    simp only [List.map_cons, List.nodup_cons] at hnd
    rcases List.mem_cons.mp h with h1 | h1
    · simp [alook, ← h1]
    · have hk : p.1 ≠ k := by
        intro hc
        exact hnd.1 (hc ▸ (List.mem_map.mpr ⟨(k, v), h1, rfl⟩))
      simp [alook, hk]
      exact ih hnd.2 h1

theorem alook_isSome_of_mem {κ β : Type} [DecidableEq κ] (l : List (κ × β)) (k : κ) (v : β)
    (h : (k, v) ∈ l) : (alook l k).isSome := by
  induction l with
  | nil => simp at h
  | cons p rest ih =>
    by_cases hp : p.1 = k
    · simp [alook, hp]
    · rcases List.mem_cons.mp h with h1 | h1
      · rw [← h1] at hp
        simp at hp
      · simp [alook, hp]
        exact ih h1

theorem map_fst_amod {κ β : Type} [DecidableEq κ] (l : List (κ × β)) (k : κ) (f : β → β) :
    (amod l k f).map Prod.fst = l.map Prod.fst := by
  induction l with
  | nil => simp [amod]
  | cons p rest ih =>
    by_cases hp : p.1 = k
    · simp [amod, hp]
    · simp [amod, hp, ih]

theorem map_fst_adel_sublist {κ β : Type} [DecidableEq κ] (l : List (κ × β)) (k : κ) :
    ((adel l k).map Prod.fst).Sublist (l.map Prod.fst) := by
  induction l with
  | nil => simp [adel]
  | cons p rest ih =>
    by_cases hp : p.1 = k
    · simp only [adel, hp, if_pos rfl, List.map_cons]
      exact (List.sublist_cons_self _ _)
    · simp only [adel, hp, if_neg hp, List.map_cons]
      exact ih.cons₂ p.1

theorem nodup_adel {κ β : Type} [DecidableEq κ] (l : List (κ × β)) (k : κ)
    (h : (l.map Prod.fst).Nodup) : ((adel l k).map Prod.fst).Nodup :=
  (map_fst_adel_sublist l k).nodup h

theorem aset_mem_cases {κ β : Type} [DecidableEq κ] (l : List (κ × β)) (k : κ) (v : β)
    (p : κ × β) (h : p ∈ aset l k v) : p ∈ l ∨ p = (k, v) := by
  induction l with
  | nil => simpa [aset] using h
  | cons q rest ih =>
    by_cases hq : q.1 = k
    · simp only [aset, if_pos hq] at h
      rcases List.mem_cons.mp h with h1 | h1
      · right
        exact h1
      · left
        exact List.mem_cons_of_mem _ h1
    · simp only [aset, if_neg hq] at h
      rcases List.mem_cons.mp h with h1 | h1
      · left
        exact h1 ▸ List.mem_cons_self _ _
      · rcases ih h1 with h2 | h2
        · left
          exact List.mem_cons_of_mem _ h2
        · right
          exact h2

theorem nodup_aset {κ β : Type} [DecidableEq κ] (l : List (κ × β)) (k : κ) (v : β)
    (h : (l.map Prod.fst).Nodup) : ((aset l k v).map Prod.fst).Nodup := by
  induction l with
  | nil => simp [aset]
  | cons p rest ih =>
    obtain ⟨a, b⟩ := p
    simp only [List.map_cons, List.nodup_cons] at h
    by_cases hp : a = k
    · subst hp
      simp only [aset, if_true, eq_self_iff_true, List.map_cons, List.nodup_cons]
      exact h
    · simp only [aset, if_neg hp, List.map_cons, List.nodup_cons]
      constructor
      · intro hc
        rcases List.mem_map.mp hc with ⟨q, hq, hq1⟩
        rcases aset_mem_cases rest k v q hq with h1 | h1
        · exact h.1 (hq1 ▸ List.mem_map.mpr ⟨q, h1, rfl⟩)
        · rw [h1] at hq1
          exact hp hq1.symm
      · exact ih h.2

theorem aset_absent {κ β : Type} [DecidableEq κ] (l : List (κ × β)) (k : κ) (v : β)
    (h : alook l k = none) : aset l k v = l ++ [(k, v)] := by
  induction l with
  | nil => simp [aset]
  | cons p rest ih =>
    by_cases hp : p.1 = k
    · simp [alook, hp] at h
    · simp [alook, hp] at h
      simp [aset, hp, ih h]

theorem alook_adel_self_nodup {κ β : Type} [DecidableEq κ] (l : List (κ × β)) (k : κ)
    (hnd : (l.map Prod.fst).Nodup) : alook (adel l k) k = none := by
  induction l with
  | nil => simp [adel, alook]
  | cons p rest ih =>
    simp only [List.map_cons, List.nodup_cons] at hnd
    by_cases hp : p.1 = k
    · simp only [adel, if_pos hp]
      subst hp
      cases h : alook rest p.1 with
      | none => rfl
      | some v =>
        exact absurd (List.mem_map.mpr ⟨(p.1, v), mem_of_alook _ _ _ h, rfl⟩) hnd.1
    · simp only [adel, if_neg hp, alook, if_neg hp]
      exact ih hnd.2

theorem alook_none_not_mem {κ β : Type} [DecidableEq κ] (l : List (κ × β)) (k : κ)
    (h : alook l k = none) : k ∉ l.map Prod.fst := by
  intro hc
  rcases List.mem_map.mp hc with ⟨q, hq, hq1⟩
  have := alook_isSome_of_mem l q.1 q.2 (by simpa using hq)
  rw [hq1, h] at this
  simp at this

/-! ## Scheduler lemmas -/

theorem alook_cancelTask (l : List (ℕ × MTask)) (tid tid' : ℕ) :
    alook (cancelTask l tid') tid =
      if tid' = tid then (alook l tid).map (fun t => { t with cancelled := true })
      else alook l tid := by
  by_cases h : tid' = tid
  · subst h
    simp [cancelTask, alook_amod_self]
  · simp [cancelTask, alook_amod_ne _ _ _ _ h, h]

theorem alook_finishTask (l : List (ℕ × MTask)) (tid tid' : ℕ) :
    alook (finishTask l tid') tid =
      if tid' = tid then (alook l tid).map (fun t => { t with finished := true })
      else alook l tid := by
  by_cases h : tid' = tid
  · subst h
    simp [finishTask, alook_amod_self]
  · simp [finishTask, alook_amod_ne _ _ _ _ h, h]

theorem cancelAll_rates (st : Sched) (vals : List ℕ) :
    (st.cancelAll vals).rates = st.rates := by
  induction vals generalizing st with
  | nil => simp [Sched.cancelAll]
  | cons v rest ih => simp [Sched.cancelAll, ih]

theorem cancelAll_registry (st : Sched) (vals : List ℕ) :
    (st.cancelAll vals).registry = st.registry := by
  induction vals generalizing st with
  | nil => simp [Sched.cancelAll]
  | cons v rest ih => simp [Sched.cancelAll, ih]

theorem cancelAll_nextId (st : Sched) (vals : List ℕ) :
    (st.cancelAll vals).nextId = st.nextId := by
  induction vals generalizing st with
  | nil => simp [Sched.cancelAll]
  | cons v rest ih => simp [Sched.cancelAll, ih]

theorem cancelAll_log (st : Sched) (vals : List ℕ) :
    (st.cancelAll vals).log = st.log ++ vals.map Eff.cancelT := by
  induction vals generalizing st with
  | nil => simp [Sched.cancelAll]
  | cons v rest ih => simp [Sched.cancelAll, ih]

theorem cancelAll_alook_tasks (st : Sched) (vals : List ℕ) (tid : ℕ) :
    alook (st.cancelAll vals).tasks tid =
      if tid ∈ vals then (alook st.tasks tid).map (fun t => { t with cancelled := true })
      else alook st.tasks tid := by
  induction vals generalizing st with
  | nil => simp [Sched.cancelAll]
  | cons v rest ih =>
    simp only [Sched.cancelAll, ih, alook_cancelTask]
    by_cases hv : v = tid
    · subst hv
      by_cases hr : v ∈ rest
      · simp [hr, Option.map_map]
        cases alook st.tasks v <;> simp
      · simp [hr]
    · by_cases hr : tid ∈ rest
      · simp [hr, hv, List.mem_cons]
      · have hv' : ¬tid = v := fun hc => hv hc.symm
        simp [hv, hv', hr, List.mem_cons]

theorem cancelAll_map_fst (st : Sched) (vals : List ℕ) :
    (st.cancelAll vals).tasks.map Prod.fst = st.tasks.map Prod.fst := by
  induction vals generalizing st with
  | nil => simp [Sched.cancelAll]
  | cons v rest ih => simp [Sched.cancelAll, ih, cancelTask, map_fst_amod]

theorem presL_cancelTask (l : List (ℕ × MTask)) (x tid : ℕ) (h : presL l tid) :
    presL (cancelTask l x) tid := by
  unfold presL at h ⊢
  rw [alook_cancelTask]
  by_cases hx : x = tid
  · rw [if_pos hx]
    simpa [Option.isSome_map] using h
  · rw [if_neg hx]
    exact h

theorem deadL_cancelTask (l : List (ℕ × MTask)) (x tid : ℕ) (h : deadL l tid) :
    deadL (cancelTask l x) tid := by
  intro t ht
  rw [alook_cancelTask] at ht
  by_cases hx : x = tid
  · rw [if_pos hx] at ht
    cases h0 : alook l tid with
    | none => rw [h0] at ht; simp at ht
    | some t0 =>
      rw [h0] at ht
      simp only [Option.map_some'] at ht
      rw [Option.some_inj] at ht
      rw [← ht]
      left
      rfl
  · rw [if_neg hx] at ht
    exact h t ht

theorem presL_finishTask (l : List (ℕ × MTask)) (x tid : ℕ) (h : presL l tid) :
    presL (finishTask l x) tid := by
  unfold presL at h ⊢
  rw [alook_finishTask]
  by_cases hx : x = tid
  · rw [if_pos hx]
    simpa [Option.isSome_map] using h
  · rw [if_neg hx]
    exact h

theorem deadL_finishTask (l : List (ℕ × MTask)) (x tid : ℕ) (h : deadL l tid) :
    deadL (finishTask l x) tid := by
  intro t ht
  rw [alook_finishTask] at ht
  by_cases hx : x = tid
  · rw [if_pos hx] at ht
    cases h0 : alook l tid with
    | none => rw [h0] at ht; simp at ht
    | some t0 =>
      rw [h0] at ht
      simp only [Option.map_some'] at ht
      rw [Option.some_inj] at ht
      rw [← ht]
      right
      rfl
  · rw [if_neg hx] at ht
    exact h t ht

theorem alook_append_of_pres (l l₂ : List (ℕ × MTask)) (tid : ℕ) (h : presL l tid) :
    alook (l ++ l₂) tid = alook l tid := by
  unfold presL at h
  cases h0 : alook l tid with
  | none => rw [h0] at h; simp at h
  | some t => exact alook_append_some _ _ _ _ h0

theorem count_append_cancelT (l : List Eff) (x tid : ℕ) :
    (l ++ [Eff.cancelT x]).count (Eff.emit tid) = l.count (Eff.emit tid) := by
  rw [List.count_append]
  simp

theorem count_append_sockClose (l : List Eff) (s tid : ℕ) :
    (l ++ [Eff.sockClose s]).count (Eff.emit tid) = l.count (Eff.emit tid) := by
  rw [List.count_append]
  simp

theorem count_append_cancelTs (l : List Eff) (vals : List ℕ) (tid : ℕ) :
    (l ++ vals.map Eff.cancelT).count (Eff.emit tid) = l.count (Eff.emit tid) := by
  rw [List.count_append]
  have : (List.count (Eff.emit tid) (vals.map Eff.cancelT)) = 0 := by
    rw [List.count_eq_zero]
    intro hc
    rcases List.mem_map.mp hc with ⟨x, _, hx⟩
    cases hx
  rw [this, Nat.add_zero]

/-! Characterization of the scheduler operations in the shapes the proofs
case on. -/

theorem stop_all_eq_none (st : Sched) (sess : ℕ) (h : alook st.registry sess = none) :
    st.stop_all_metering sess = st := by
  unfold Sched.stop_all_metering
  rw [h]

theorem stop_all_eq_some (st : Sched) (sess : ℕ) (inner : List (ℕ × ℕ))
    (h : alook st.registry sess = some inner) :
    st.stop_all_metering sess =
      { st.cancelAll (inner.map Prod.snd) with
          registry := adel (st.cancelAll (inner.map Prod.snd)).registry sess } := by
  unfold Sched.stop_all_metering
  rw [h]

theorem cancel_existing_eq_none (st : Sched) (sess chan : ℕ)
    (h : alook2 st.registry sess chan = none) : st.cancel_existing sess chan = st := by
  unfold Sched.cancel_existing
  rw [h]

theorem cancel_existing_eq_some (st : Sched) (sess chan tid : ℕ)
    (h : alook2 st.registry sess chan = some tid) :
    st.cancel_existing sess chan =
      { st with
          tasks := cancelTask st.tasks tid
          registry := amod st.registry sess (fun d => adel d chan)
          log := st.log ++ [Eff.cancelT tid] } := by
  unfold Sched.cancel_existing
  rw [h]

theorem meter_step_eq_none (st : Sched) (x : ℕ) (h : alook st.tasks x = none) :
    st.meter_step x = st := by
  unfold Sched.meter_step
  rw [h]

theorem meter_step_eq_some (st : Sched) (x : ℕ) (t : MTask)
    (h : alook st.tasks x = some t) :
    st.meter_step x =
      (if t.finished = true then st
       else if t.cancelled = true then { st with tasks := finishTask st.tasks x }
       else
         match alook st.rates t.chan with
         | none => { st with tasks := finishTask st.tasks x }
         | some r =>
           if r = 0 then { st with tasks := finishTask st.tasks x }
           else { st with log := st.log ++ [Eff.emit x] }) := by
  unfold Sched.meter_step
  rw [h]

theorem applyEv_setCmd (st : Sched) (sess chan : ℕ) (rate : ℤ) :
    st.applyEv (Ev.setCmd sess chan rate) =
      Sched.start_metering { st with rates := aset st.rates chan rate } sess chan rate := rfl

theorem applyEv_taskStep (st : Sched) (tid : ℕ) :
    st.applyEv (Ev.taskStep tid) = st.meter_step tid := rfl

theorem applyEv_disconnect (st : Sched) (sess : ℕ) :
    st.applyEv (Ev.disconnect sess) = (st.stop_all_metering sess).sock_close sess := rfl

theorem run_cons (st : Sched) (e : Ev) (rest : List Ev) :
    st.run (e :: rest) = (st.applyEv e).run rest := rfl

theorem PD_ensure_sess (st : Sched) (sess tid : ℕ) (h : PD st tid) :
    PD (st.ensure_sess sess) tid ∧
      countEmit (st.ensure_sess sess) tid = countEmit st tid := by
  unfold Sched.ensure_sess
  split
  · exact ⟨h, rfl⟩
  · exact ⟨h, rfl⟩

theorem PD_cancel_existing (st : Sched) (sess chan tid : ℕ) (h : PD st tid) :
    PD (st.cancel_existing sess chan) tid ∧
      countEmit (st.cancel_existing sess chan) tid = countEmit st tid := by
  cases halt : alook2 st.registry sess chan with
  | none =>
    rw [cancel_existing_eq_none st sess chan halt]
    exact ⟨h, rfl⟩
  | some x =>
    rw [cancel_existing_eq_some st sess chan x halt]
    refine ⟨⟨presL_cancelTask _ _ _ h.1, deadL_cancelTask _ _ _ h.2⟩, ?_⟩
    exact count_append_cancelT _ _ _

theorem PD_create_task (st : Sched) (sess chan tid : ℕ) (h : PD st tid) :
    PD (st.create_task sess chan) tid ∧
      countEmit (st.create_task sess chan) tid = countEmit st tid := by
  unfold Sched.create_task
  have halt : alook (st.tasks ++ [(st.nextId, (⟨sess, chan, false, false⟩ : MTask))]) tid
      = alook st.tasks tid := alook_append_of_pres _ _ _ h.1
  refine ⟨⟨?_, ?_⟩, rfl⟩
  · unfold presL
    rw [halt]
    exact h.1
  · intro t ht
    rw [halt] at ht
    exact h.2 t ht

theorem PD_start_metering (st : Sched) (sess chan : ℕ) (rate : ℤ) (tid : ℕ)
    (h : PD st tid) :
    PD (st.start_metering sess chan rate) tid ∧
      countEmit (st.start_metering sess chan rate) tid = countEmit st tid := by
  obtain ⟨h1, e1⟩ := PD_ensure_sess st sess tid h
  obtain ⟨h2, e2⟩ := PD_cancel_existing (st.ensure_sess sess) sess chan tid h1
  unfold Sched.start_metering
  split
  · obtain ⟨h3, e3⟩ :=
      PD_create_task ((st.ensure_sess sess).cancel_existing sess chan) sess chan tid h2
    exact ⟨h3, by rw [e3, e2, e1]⟩
  · exact ⟨h2, by rw [e2, e1]⟩

theorem PD_stop_all (st : Sched) (sess tid : ℕ) (h : PD st tid) :
    PD (st.stop_all_metering sess) tid ∧
      countEmit (st.stop_all_metering sess) tid = countEmit st tid := by
  cases halt : alook st.registry sess with
  | none =>
    rw [stop_all_eq_none st sess halt]
    exact ⟨h, rfl⟩
  | some inner =>
    rw [stop_all_eq_some st sess inner halt]
    have htasks := cancelAll_alook_tasks st (inner.map Prod.snd) tid
    have hlog := cancelAll_log st (inner.map Prod.snd)
    refine ⟨⟨?_, ?_⟩, ?_⟩
    · unfold presL
      show (alook (st.cancelAll (inner.map Prod.snd)).tasks tid).isSome
      rw [htasks]
      split
      · have := h.1
        unfold presL at this
        simpa [Option.isSome_map] using this
      · exact h.1
    · intro t ht
      have ht' : alook (st.cancelAll (inner.map Prod.snd)).tasks tid = some t := ht
      rw [htasks] at ht'
      split at ht'
      · cases h0 : alook st.tasks tid with
        | none => rw [h0] at ht'; simp at ht'
        | some t0 =>
          rw [h0] at ht'
          simp only [Option.map_some'] at ht'
          rw [Option.some_inj] at ht'
          rw [← ht']
          left
          rfl
      · exact h.2 t ht'
    · show (st.cancelAll (inner.map Prod.snd)).log.count (Eff.emit tid) = _
      rw [hlog]
      exact count_append_cancelTs _ _ _

theorem PD_meter_step (st : Sched) (x tid : ℕ) (h : PD st tid) :
    PD (st.meter_step x) tid ∧ countEmit (st.meter_step x) tid = countEmit st tid := by
  cases halt : alook st.tasks x with
  | none =>
    rw [meter_step_eq_none st x halt]
    exact ⟨h, rfl⟩
  | some t =>
    rw [meter_step_eq_some st x t halt]
    by_cases hfin : t.finished = true
    · rw [if_pos hfin]
      exact ⟨h, rfl⟩
    · rw [if_neg hfin]
      by_cases hcan : t.cancelled = true
      · rw [if_pos hcan]
        exact ⟨⟨presL_finishTask _ _ _ h.1, deadL_finishTask _ _ _ h.2⟩, rfl⟩
      · rw [if_neg hcan]
        cases hr : alook st.rates t.chan with
        | none => exact ⟨⟨presL_finishTask _ _ _ h.1, deadL_finishTask _ _ _ h.2⟩, rfl⟩
        | some r =>
          dsimp only
          by_cases hr0 : r = 0
          · rw [if_pos hr0]
            exact ⟨⟨presL_finishTask _ _ _ h.1, deadL_finishTask _ _ _ h.2⟩, rfl⟩
          · rw [if_neg hr0]
            have hxt : ¬x = tid := by
              intro hc
              subst hc
              rcases h.2 t halt with hc1 | hc1
              · exact hcan hc1
              · exact hfin hc1
            refine ⟨h, ?_⟩
            show (st.log ++ [Eff.emit x]).count (Eff.emit tid) = countEmit st tid
            rw [List.count_append]
            have hz : (List.count (Eff.emit tid) [Eff.emit x]) = 0 := by
              rw [List.count_eq_zero]
              intro hc
              simp only [List.mem_singleton] at hc
              cases hc
              exact hxt rfl
            rw [hz]
            rfl

/-- A single applied event preserves presence and deadness of a dead task id
and adds no emission for it. -/
theorem PD_applyEv (st : Sched) (e : Ev) (tid : ℕ) (h : PD st tid) :
    PD (st.applyEv e) tid ∧ countEmit (st.applyEv e) tid = countEmit st tid := by
  cases e with
  | setCmd sess chan rate =>
    rw [applyEv_setCmd]
    exact PD_start_metering { st with rates := aset st.rates chan rate } sess chan rate tid h
  | taskStep x =>
    rw [applyEv_taskStep]
    exact PD_meter_step st x tid h
  | disconnect sess =>
    rw [applyEv_disconnect]
    obtain ⟨h1, e1⟩ := PD_stop_all st sess tid h
    unfold Sched.sock_close
    refine ⟨h1, ?_⟩
    show ((st.stop_all_metering sess).log ++ [Eff.sockClose sess]).count _ = _
    rw [count_append_sockClose]
    exact e1

/-- Running any event sequence preserves presence and deadness of a dead
task id and adds no emission for it. -/
theorem PD_run (st : Sched) (evs : List Ev) (tid : ℕ) (h : PD st tid) :
    PD (st.run evs) tid ∧ countEmit (st.run evs) tid = countEmit st tid := by
  induction evs generalizing st with
  | nil => exact ⟨h, rfl⟩
  | cons e rest ih =>
    obtain ⟨h1, e1⟩ := PD_applyEv st e tid h
    obtain ⟨h2, e2⟩ := ih (st.applyEv e) h1
    rw [run_cons]
    exact ⟨h2, by rw [e2, e1]⟩

theorem adel_sublist {κ β : Type} [DecidableEq κ] (l : List (κ × β)) (k : κ) :
    (adel l k).Sublist l := by
  induction l with
  | nil => simp [adel]
  | cons p rest ih =>
    by_cases hp : p.1 = k
    · simp only [adel, if_pos hp]
      exact List.sublist_cons_self _ _
    · simp only [adel, if_neg hp]
      exact ih.cons₂ p

theorem mem_amod {κ β : Type} [DecidableEq κ] (l : List (κ × β)) (k : κ) (f : β → β)
    (p : κ × β) (h : p ∈ amod l k f) : p ∈ l ∨ ∃ v, (k, v) ∈ l ∧ p = (k, f v) := by
  induction l with
  | nil => simp [amod] at h
  | cons q rest ih =>
    by_cases hq : q.1 = k
    · simp only [amod, if_pos hq] at h
      rcases List.mem_cons.mp h with h1 | h1
      · right
        refine ⟨q.2, ?_, ?_⟩
        · rw [← hq]
          exact List.mem_cons_self _ _
        · rw [h1, hq]
      · left
        exact List.mem_cons_of_mem _ h1
    · simp only [amod, if_neg hq] at h
      rcases List.mem_cons.mp h with h1 | h1
      · left
        exact h1 ▸ List.mem_cons_self _ _
      · rcases ih h1 with h2 | ⟨v, hv, hp⟩
        · left
          exact List.mem_cons_of_mem _ h2
        · right
          exact ⟨v, List.mem_cons_of_mem _ hv, hp⟩

theorem alook_none_of_keys_lt (l : List (ℕ × MTask)) (n : ℕ)
    (h : ∀ p ∈ l, p.1 < n) : alook l n = none := by
  cases h0 : alook l n with
  | none => rfl
  | some v =>
    have := h (n, v) (mem_of_alook _ _ _ h0)
    simp at this

theorem keys_lt_transfer (l l' : List (ℕ × MTask)) (n : ℕ)
    (hk : l'.map Prod.fst = l.map Prod.fst) (h : ∀ p ∈ l, p.1 < n) :
    ∀ p ∈ l', p.1 < n := by
  intro p hp
  have : p.1 ∈ l'.map Prod.fst := List.mem_map.mpr ⟨p, hp, rfl⟩
  rw [hk] at this
  rcases List.mem_map.mp this with ⟨q, hq, hq1⟩
  exact hq1 ▸ h q hq

theorem nodup_append_singleton {α : Type} (l : List α) (x : α)
    (h : l.Nodup) (hx : x ∉ l) : (l ++ [x]).Nodup := by
  rw [List.nodup_append]
  refine ⟨h, List.nodup_singleton x, ?_⟩
  intro a ha hb
  simp only [List.mem_singleton] at hb
  exact hx (hb ▸ ha)

theorem snd_mem_of_alook {κ β : Type} [DecidableEq κ] (l : List (κ × β)) (k : κ) (v : β)
    (h : alook l k = some v) : v ∈ l.map Prod.snd :=
  List.mem_map.mpr ⟨(k, v), mem_of_alook _ _ _ h, rfl⟩

/-! Basic shape lemmas for `ensure_sess`. -/

theorem ensure_tasks (st : Sched) (sess : ℕ) : (st.ensure_sess sess).tasks = st.tasks := by
  unfold Sched.ensure_sess
  split <;> rfl

theorem ensure_nextId (st : Sched) (sess : ℕ) : (st.ensure_sess sess).nextId = st.nextId := by
  unfold Sched.ensure_sess
  split <;> rfl

theorem ensure_alook2 (st : Sched) (sess : ℕ) (s c : ℕ) :
    alook2 (st.ensure_sess sess).registry s c = alook2 st.registry s c := by
  unfold Sched.ensure_sess
  split
  · rfl
  case _ hns =>
    show alook2 (st.registry ++ [(sess, [])]) s c = _
    unfold alook2
    cases h0 : alook st.registry s with
    | none =>
      rw [alook_append_none _ _ _ h0]
      by_cases hs : sess = s
      · subst hs
        simp [alook]
      · simp [alook, hs]
    | some inner =>
      rw [alook_append_some _ _ _ _ h0]

theorem ensure_isSome (st : Sched) (sess : ℕ) :
    (alook (st.ensure_sess sess).registry sess).isSome := by
  unfold Sched.ensure_sess
  split
  case _ h => exact h
  case _ h =>
    show (alook (st.registry ++ [(sess, [])]) sess).isSome
    have h0 : alook st.registry sess = none := by
      cases h1 : alook st.registry sess with
      | none => rfl
      | some v => rw [h1] at h; simp at h
    rw [alook_append_none _ _ _ h0]
    simp [alook]

theorem alook2_none_left (r : List (ℕ × List (ℕ × ℕ))) (s c : ℕ)
    (h : alook r s = none) : alook2 r s c = none := by
  unfold alook2
  rw [h]

theorem alook2_some_left (r : List (ℕ × List (ℕ × ℕ))) (s c : ℕ) (inner : List (ℕ × ℕ))
    (h : alook r s = some inner) : alook2 r s c = alook inner c := by
  unfold alook2
  rw [h]

/-! Invariant preservation. -/

theorem Inv_ensure_sess (st : Sched) (sess : ℕ) (h : st.Inv) :
    (st.ensure_sess sess).Inv := by
  obtain ⟨c1, c2, c3, c4, c5, c6⟩ := h
  unfold Sched.ensure_sess
  split
  · exact ⟨c1, c2, c3, c4, c5, c6⟩
  case _ hns =>
    have h0 : alook st.registry sess = none := by
      cases h1 : alook st.registry sess with
      | none => rfl
      | some v => rw [h1] at hns; simp at hns
    refine ⟨c1, c2, ?_, ?_, ?_, ?_⟩
    · intro p hp hl
      have hold := c3 p hp hl
      show alook2 (st.registry ++ [(sess, [])]) _ _ = _
      cases h2 : alook st.registry p.2.sess with
      | none => rw [alook2_none_left _ _ _ h2] at hold; cases hold
      | some inner =>
        rw [alook2_some_left _ _ _ _ h2] at hold
        rw [alook2_some_left _ _ _ _ (alook_append_some _ _ _ _ h2)]
        exact hold
    · intro q hq e he
      rcases List.mem_append.mp hq with h1 | h1
      · exact c4 q h1 e he
      · simp only [List.mem_singleton] at h1
        subst h1
        simp at he
    · show ((st.registry ++ [(sess, [])]).map Prod.fst).Nodup
      rw [List.map_append]
      exact nodup_append_singleton _ _ c5 (alook_none_not_mem _ _ h0)
    · intro q hq
      rcases List.mem_append.mp hq with h1 | h1
      · exact c6 q h1
      · simp only [List.mem_singleton] at h1
        subst h1
        simp

theorem Inv_cancel_existing (st : Sched) (sess chan : ℕ) (h : st.Inv) :
    (st.cancel_existing sess chan).Inv := by
  obtain ⟨c1, c2, c3, c4, c5, c6⟩ := h
  cases hreg : alook2 st.registry sess chan with
  | none =>
    rw [cancel_existing_eq_none _ _ _ hreg]
    exact ⟨c1, c2, c3, c4, c5, c6⟩
  | some tid =>
    rw [cancel_existing_eq_some _ _ _ _ hreg]
    have hsein : ∃ inner, alook st.registry sess = some inner ∧ alook inner chan = some tid := by
      cases h2 : alook st.registry sess with
      | none => rw [alook2_none_left _ _ _ h2] at hreg; cases hreg
      | some inner =>
        rw [alook2_some_left _ _ _ _ h2] at hreg
        exact ⟨inner, rfl, hreg⟩
    obtain ⟨inner, hse, hch⟩ := hsein
    refine ⟨?_, ?_, ?_, ?_, ?_, ?_⟩
    · exact keys_lt_transfer _ _ _ (map_fst_amod _ _ _) c1
    · show ((cancelTask st.tasks tid).map Prod.fst).Nodup
      unfold cancelTask
      rw [map_fst_amod]
      exact c2
    · intro p hp hl
      have hnd' : ((cancelTask st.tasks tid).map Prod.fst).Nodup := by
        unfold cancelTask
        rw [map_fst_amod]
        exact c2
      have halp := alook_of_mem_nodup _ _ _ hnd' hp
      rw [alook_cancelTask] at halp
      by_cases htid : tid = p.1
      · rw [if_pos htid] at halp
        cases h2 : alook st.tasks p.1 with
        | none => rw [h2] at halp; cases halp
        | some t0 =>
          rw [h2] at halp
          simp only [Option.map_some'] at halp
          rw [Option.some_inj] at halp
          exfalso
          have := hl.1
          rw [← halp] at this
          cases this
      · rw [if_neg htid] at halp
        have hpm := mem_of_alook _ _ _ halp
        have hpm' : p ∈ st.tasks := by
          cases p
          exact hpm
        have hold := c3 p hpm' hl
        by_cases hs : p.2.sess = sess
        · subst hs
          rw [alook2_some_left _ _ _ _ hse] at hold
          by_cases hc : p.2.chan = chan
          · rw [hc] at hold
            rw [hold] at hch
            rw [Option.some_inj] at hch
            exact absurd hch.symm htid
          · show alook2 (amod st.registry p.2.sess (fun d => adel d chan)) _ _ = _
            rw [alook2_some_left _ _ _ (adel inner chan)]
            · rw [alook_adel_ne _ _ _ (fun hcc => hc hcc.symm)]
              exact hold
            · rw [alook_amod_self, hse]
              rfl
        · show alook2 (amod st.registry sess (fun d => adel d chan)) _ _ = _
          unfold alook2
          rw [alook_amod_ne _ _ _ _ (fun hcc => hs hcc.symm)]
          unfold alook2 at hold
          exact hold
    · intro q hq e he
      rcases mem_amod _ _ _ _ hq with h1 | ⟨v, hv, hq1⟩
      · have := c4 q h1 e he
        cases h2 : alook st.tasks e.2 with
        | none => rw [h2] at this; cases this
        | some t0 =>
          show (alook (cancelTask st.tasks tid) e.2).isSome
          rw [alook_cancelTask]
          split
          · rw [h2]
            rfl
          · rw [h2]
            rfl
      · subst hq1
        simp only at he
        have hev : e ∈ v := (adel_sublist v chan).mem he
        have := c4 (sess, v) hv e hev
        cases h2 : alook st.tasks e.2 with
        | none => rw [h2] at this; cases this
        | some t0 =>
          show (alook (cancelTask st.tasks tid) e.2).isSome
          rw [alook_cancelTask]
          split
          · rw [h2]
            rfl
          · rw [h2]
            rfl
    · show ((amod st.registry sess _).map Prod.fst).Nodup
      rw [map_fst_amod]
      exact c5
    · intro q hq
      rcases mem_amod _ _ _ _ hq with h1 | ⟨v, hv, hq1⟩
      · exact c6 q h1
      · subst hq1
        simp only
        exact nodup_adel _ _ (c6 (sess, v) hv)

theorem cancel_existing_alook2_self (st : Sched) (sess chan : ℕ) (h : st.Inv) :
    alook2 (st.cancel_existing sess chan).registry sess chan = none := by
  obtain ⟨c1, c2, c3, c4, c5, c6⟩ := h
  cases hreg : alook2 st.registry sess chan with
  | none =>
    rw [cancel_existing_eq_none _ _ _ hreg]
    exact hreg
  | some tid =>
    rw [cancel_existing_eq_some _ _ _ _ hreg]
    have hsein : ∃ inner, alook st.registry sess = some inner := by
      cases h2 : alook st.registry sess with
      | none => rw [alook2_none_left _ _ _ h2] at hreg; cases hreg
      | some inner => exact ⟨inner, rfl⟩
    obtain ⟨inner, hse⟩ := hsein
    show alook2 (amod st.registry sess (fun d => adel d chan)) sess chan = none
    rw [alook2_some_left _ _ _ (adel inner chan)]
    · exact alook_adel_self_nodup _ _ (c6 (sess, inner) (mem_of_alook _ _ _ hse))
    · rw [alook_amod_self, hse]
      rfl

theorem cancel_existing_isSome (st : Sched) (sess chan s : ℕ)
    (h : (alook st.registry s).isSome) :
    (alook (st.cancel_existing sess chan).registry s).isSome := by
  cases hreg : alook2 st.registry sess chan with
  | none =>
    rw [cancel_existing_eq_none _ _ _ hreg]
    exact h
  | some tid =>
    rw [cancel_existing_eq_some _ _ _ _ hreg]
    show (alook (amod st.registry sess _) s).isSome
    by_cases hs : sess = s
    · subst hs
      rw [alook_amod_self]
      simpa [Option.isSome_map] using h
    · rw [alook_amod_ne _ _ _ _ hs]
      exact h

theorem Inv_create_task (st : Sched) (sess chan : ℕ) (h : st.Inv)
    (hnone : alook2 st.registry sess chan = none)
    (hsome : (alook st.registry sess).isSome) :
    (st.create_task sess chan).Inv := by
  obtain ⟨c1, c2, c3, c4, c5, c6⟩ := h
  obtain ⟨inner, hse⟩ : ∃ inner, alook st.registry sess = some inner := by
    cases h1 : alook st.registry sess with
    | none => rw [h1] at hsome; simp at hsome
    | some inner => exact ⟨inner, rfl⟩
  have hfresh : alook st.tasks st.nextId = none := alook_none_of_keys_lt _ _ c1
  unfold Sched.create_task
  refine ⟨?_, ?_, ?_, ?_, ?_, ?_⟩
  · intro p hp
    rcases List.mem_append.mp hp with h1 | h1
    · exact Nat.lt_succ_of_lt (c1 p h1)
    · simp only [List.mem_singleton] at h1
      subst h1
      exact Nat.lt_succ_self _
  · show ((st.tasks ++ [(st.nextId, _)]).map Prod.fst).Nodup
    rw [List.map_append]
    exact nodup_append_singleton _ _ c2 (alook_none_not_mem _ _ hfresh)
  · intro p hp hl
    rcases List.mem_append.mp hp with h1 | h1
    · have hold := c3 p h1 hl
      by_cases hs : p.2.sess = sess
      · rw [hs] at hold ⊢
        rw [alook2_some_left _ _ _ _ hse] at hold
        by_cases hc : p.2.chan = chan
        · rw [hc] at hold
          rw [alook2_some_left _ _ _ _ hse] at hnone
          rw [hold] at hnone
          cases hnone
        · show alook2 (amod st.registry sess _) _ _ = _
          rw [alook2_some_left _ _ _ (aset inner chan st.nextId)]
          · rw [alook_aset_ne _ _ _ _ (fun hcc => hc hcc.symm)]
            exact hold
          · rw [alook_amod_self, hse]
            rfl
      · show alook2 (amod st.registry sess _) _ _ = _
        unfold alook2
        rw [alook_amod_ne _ _ _ _ (fun hcc => hs hcc.symm)]
        unfold alook2 at hold
        exact hold
    · simp only [List.mem_singleton] at h1
      subst h1
      show alook2 (amod st.registry sess _) sess chan = some st.nextId
      rw [alook2_some_left _ _ _ (aset inner chan st.nextId)]
      · exact alook_aset_self _ _ _
      · rw [alook_amod_self, hse]
        rfl
  · intro q hq e he
    have hpres : ∀ x, (alook st.tasks x).isSome →
        (alook (st.tasks ++ [(st.nextId, (⟨sess, chan, false, false⟩ : MTask))]) x).isSome := by
      intro x hx
      rw [alook_append_of_pres _ _ _ hx]
      exact hx
    rcases mem_amod _ _ _ _ hq with h1 | ⟨v, hv, hq1⟩
    · exact hpres _ (c4 q h1 e he)
    · subst hq1
      simp only at he
      rcases aset_mem_cases _ _ _ _ he with h2 | h2
      · exact hpres _ (c4 (sess, v) hv e h2)
      · subst h2
        simp only
        rw [alook_append_none _ _ _ hfresh]
        simp [alook]
  · show ((amod st.registry sess _).map Prod.fst).Nodup
    rw [map_fst_amod]
    exact c5
  · intro q hq
    rcases mem_amod _ _ _ _ hq with h1 | ⟨v, hv, hq1⟩
    · exact c6 q h1
    · subst hq1
      simp only
      exact nodup_aset _ _ _ (c6 (sess, v) hv)

theorem Inv_start_metering (st : Sched) (sess chan : ℕ) (rate : ℤ) (h : st.Inv) :
    (st.start_metering sess chan rate).Inv := by
  have h1 := Inv_ensure_sess st sess h
  have h2 := Inv_cancel_existing (st.ensure_sess sess) sess chan h1
  unfold Sched.start_metering
  split
  · refine Inv_create_task _ sess chan h2 ?_ ?_
    · exact cancel_existing_alook2_self _ _ _ h1
    · exact cancel_existing_isSome _ _ _ _ (ensure_isSome st sess)
  · exact h2

theorem isSome_cancelAll (st : Sched) (vals : List ℕ) (x : ℕ)
    (h : (alook st.tasks x).isSome) :
    (alook (st.cancelAll vals).tasks x).isSome := by
  rw [cancelAll_alook_tasks]
  split
  · simpa [Option.isSome_map] using h
  · exact h

theorem Inv_stop_all (st : Sched) (sess : ℕ) (h : st.Inv) :
    (st.stop_all_metering sess).Inv := by
  obtain ⟨c1, c2, c3, c4, c5, c6⟩ := h
  cases halt : alook st.registry sess with
  | none =>
    rw [stop_all_eq_none _ _ halt]
    exact ⟨c1, c2, c3, c4, c5, c6⟩
  | some inner =>
    rw [stop_all_eq_some _ _ _ halt]
    refine ⟨?_, ?_, ?_, ?_, ?_, ?_⟩
    · show ∀ p ∈ (st.cancelAll (inner.map Prod.snd)).tasks, p.1 < (st.cancelAll (inner.map Prod.snd)).nextId
      rw [cancelAll_nextId]
      exact keys_lt_transfer _ _ _ (cancelAll_map_fst _ _) c1
    · show ((st.cancelAll (inner.map Prod.snd)).tasks.map Prod.fst).Nodup
      rw [cancelAll_map_fst]
      exact c2
    · intro p hp hl
      obtain ⟨pk, pv⟩ := p
      have hp' : (pk, pv) ∈ (st.cancelAll (inner.map Prod.snd)).tasks := hp
      have hl' : liveT pv := hl
      have hnd' : ((st.cancelAll (inner.map Prod.snd)).tasks.map Prod.fst).Nodup := by
        rw [cancelAll_map_fst]
        exact c2
      have halp := alook_of_mem_nodup _ _ _ hnd' hp'
      rw [cancelAll_alook_tasks] at halp
      split at halp
      case _ hin =>
        cases h2 : alook st.tasks pk with
        | none => rw [h2] at halp; cases halp
        | some t0 =>
          rw [h2] at halp
          simp only [Option.map_some'] at halp
          rw [Option.some_inj] at halp
          exfalso
          have := hl'.1
          rw [← halp] at this
          cases this
      case _ hnin =>
        have hpm : (pk, pv) ∈ st.tasks := mem_of_alook _ _ _ halp
        have hold := c3 (pk, pv) hpm hl'
        show alook2 (adel (st.cancelAll (inner.map Prod.snd)).registry sess) pv.sess pv.chan
          = some pk
        rw [cancelAll_registry]
        by_cases hs : pv.sess = sess
        · exfalso
          rw [hs] at hold
          rw [alook2_some_left _ _ _ _ halt] at hold
          exact hnin (snd_mem_of_alook _ _ _ hold)
        · unfold alook2
          rw [alook_adel_ne _ _ _ (fun hcc => hs hcc.symm)]
          unfold alook2 at hold
          exact hold
    · intro q hq e he
      have hq' : q ∈ st.registry := by
        have : q ∈ adel (st.cancelAll (inner.map Prod.snd)).registry sess := hq
        rw [cancelAll_registry] at this
        exact (adel_sublist _ _).mem this
      exact isSome_cancelAll _ _ _ (c4 q hq' e he)
    · show ((adel (st.cancelAll (inner.map Prod.snd)).registry sess).map Prod.fst).Nodup
      rw [cancelAll_registry]
      exact nodup_adel _ _ c5
    · intro q hq
      have hq' : q ∈ st.registry := by
        have : q ∈ adel (st.cancelAll (inner.map Prod.snd)).registry sess := hq
        rw [cancelAll_registry] at this
        exact (adel_sublist _ _).mem this
      exact c6 q hq'

theorem Inv_finishTask (st : Sched) (x : ℕ) (h : st.Inv) :
    Sched.Inv { st with tasks := finishTask st.tasks x } := by
  obtain ⟨c1, c2, c3, c4, c5, c6⟩ := h
  have hkeys : (finishTask st.tasks x).map Prod.fst = st.tasks.map Prod.fst := by
    unfold finishTask
    exact map_fst_amod _ _ _
  refine ⟨?_, ?_, ?_, ?_, c5, c6⟩
  · exact keys_lt_transfer _ _ _ hkeys c1
  · rw [hkeys]
    exact c2
  · intro p hp hl
    obtain ⟨pk, pv⟩ := p
    have hp' : (pk, pv) ∈ finishTask st.tasks x := hp
    have hl' : liveT pv := hl
    have hnd' : ((finishTask st.tasks x).map Prod.fst).Nodup := by
      rw [hkeys]
      exact c2
    have halp := alook_of_mem_nodup _ _ _ hnd' hp'
    rw [alook_finishTask] at halp
    by_cases hx : x = pk
    · rw [if_pos hx] at halp
      cases h2 : alook st.tasks pk with
      | none => rw [h2] at halp; cases halp
      | some t0 =>
        rw [h2] at halp
        simp only [Option.map_some'] at halp
        rw [Option.some_inj] at halp
        exfalso
        have := hl'.2
        rw [← halp] at this
        cases this
    · rw [if_neg hx] at halp
      have hpm : (pk, pv) ∈ st.tasks := mem_of_alook _ _ _ halp
      exact c3 (pk, pv) hpm hl'
  · intro q hq e he
    have := c4 q hq e he
    show (alook (finishTask st.tasks x) e.2).isSome
    rw [alook_finishTask]
    split
    · simpa [Option.isSome_map] using this
    · exact this

theorem Inv_meter_step (st : Sched) (x : ℕ) (h : st.Inv) : (st.meter_step x).Inv := by
  cases halt : alook st.tasks x with
  | none =>
    rw [meter_step_eq_none _ _ halt]
    exact h
  | some t =>
    rw [meter_step_eq_some _ _ _ halt]
    by_cases hfin : t.finished = true
    · rw [if_pos hfin]
      exact h
    · rw [if_neg hfin]
      by_cases hcan : t.cancelled = true
      · rw [if_pos hcan]
        exact Inv_finishTask st x h
      · rw [if_neg hcan]
        cases hr : alook st.rates t.chan with
        | none => exact Inv_finishTask st x h
        | some r =>
          dsimp only
          by_cases hr0 : r = 0
          · rw [if_pos hr0]
            exact Inv_finishTask st x h
          · rw [if_neg hr0]
            obtain ⟨c1, c2, c3, c4, c5, c6⟩ := h
            exact ⟨c1, c2, c3, c4, c5, c6⟩

theorem Inv_applyEv (st : Sched) (e : Ev) (h : st.Inv) : (st.applyEv e).Inv := by
  cases e with
  | setCmd sess chan rate =>
    rw [applyEv_setCmd]
    have h0 : Sched.Inv { st with rates := aset st.rates chan rate } := by
      obtain ⟨c1, c2, c3, c4, c5, c6⟩ := h
      exact ⟨c1, c2, c3, c4, c5, c6⟩
    exact Inv_start_metering _ sess chan rate h0
  | taskStep x =>
    rw [applyEv_taskStep]
    exact Inv_meter_step st x h
  | disconnect sess =>
    rw [applyEv_disconnect]
    have h1 := Inv_stop_all st sess h
    obtain ⟨c1, c2, c3, c4, c5, c6⟩ := h1
    exact ⟨c1, c2, c3, c4, c5, c6⟩

theorem Inv_run (st : Sched) (evs : List Ev) (h : st.Inv) : (st.run evs).Inv := by
  induction evs generalizing st with
  | nil => exact h
  | cons e rest ih =>
    rw [run_cons]
    exact ih _ (Inv_applyEv st e h)

/-- The invariant yields the at-most-one-live-task-per-pair property. -/
theorem Inv_oneLive (st : Sched) (h : st.Inv) : st.oneLivePerPair := by
  obtain ⟨c1, c2, c3, c4, c5, c6⟩ := h
  intro p hp q hq hlp hlq hs hc
  have h1 := c3 p hp hlp
  have h2 := c3 q hq hlq
  rw [hs, hc] at h1
  rw [h1] at h2
  rw [Option.some_inj] at h2
  exact h2

/-- `start_metering` leaves the previously registered task of the pair
present and dead. -/
theorem start_metering_kills (st : Sched) (sess chan : ℕ) (rate : ℤ) (tid : ℕ)
    (hInv : st.Inv) (hreg : alook2 st.registry sess chan = some tid) :
    PD (st.start_metering sess chan rate) tid := by
  obtain ⟨c1, c2, c3, c4, c5, c6⟩ := hInv
  obtain ⟨inner, hse, hch⟩ :
      ∃ inner, alook st.registry sess = some inner ∧ alook inner chan = some tid := by
    cases h2 : alook st.registry sess with
    | none => rw [alook2_none_left _ _ _ h2] at hreg; cases hreg
    | some inner =>
      rw [alook2_some_left _ _ _ _ h2] at hreg
      exact ⟨inner, rfl, hreg⟩
  have hpres : (alook st.tasks tid).isSome :=
    c4 (sess, inner) (mem_of_alook _ _ _ hse) (chan, tid) (mem_of_alook _ _ _ hch)
  -- after ensure_sess: registry lookups and tasks unchanged
  have hreg1 : alook2 (st.ensure_sess sess).registry sess chan = some tid := by
    rw [ensure_alook2]
    exact hreg
  have hpres1 : (alook (st.ensure_sess sess).tasks tid).isSome := by
    rw [ensure_tasks]
    exact hpres
  -- cancel_existing cancels exactly tid
  have hPD2 : PD ((st.ensure_sess sess).cancel_existing sess chan) tid := by
    rw [cancel_existing_eq_some _ _ _ _ hreg1]
    constructor
    · show (alook (cancelTask (st.ensure_sess sess).tasks tid) tid).isSome
      rw [alook_cancelTask, if_pos rfl]
      simpa [Option.isSome_map] using hpres1
    · intro t ht
      have ht' : alook (cancelTask (st.ensure_sess sess).tasks tid) tid = some t := ht
      rw [alook_cancelTask, if_pos rfl] at ht'
      cases h2 : alook (st.ensure_sess sess).tasks tid with
      | none => rw [h2] at ht'; cases ht'
      | some t0 =>
        rw [h2] at ht'
        simp only [Option.map_some'] at ht'
        rw [Option.some_inj] at ht'
        rw [← ht']
        left
        rfl
  unfold Sched.start_metering
  split
  · exact (PD_create_task _ sess chan tid hPD2).1
  · exact hPD2

/-! ## Claim C1 -/

/-- C1: when `SetRate` runs (via a `SET channel METER_RATE` command) while a
metering task is registered for the (session, channel) pair, that task is
cancelled within the call — the call returns with the task already unable
to write (asyncio throws `CancelledError` into it at its next resumption,
before any further `writer.write`) — so the replaced task never emits
another metering message in any continuation of the execution, and at most
one live metering task ever exists per (session, channel) pair. -/
theorem setRate_cancels_previous_task (st : Sched) (sess chan tid : ℕ) (rate : ℤ)
    (hInv : st.Inv) (hreg : alook2 st.registry sess chan = some tid) :
    (st.applyEv (Ev.setCmd sess chan rate)).deadAt tid
    ∧ (∀ evs : List Ev,
        countEmit ((st.applyEv (Ev.setCmd sess chan rate)).run evs) tid
          = countEmit (st.applyEv (Ev.setCmd sess chan rate)) tid)
    ∧ (∀ evs : List Ev, ((st.applyEv (Ev.setCmd sess chan rate)).run evs).oneLivePerPair) := by
  have hInv0 : Sched.Inv { st with rates := aset st.rates chan rate } := by
    obtain ⟨c1, c2, c3, c4, c5, c6⟩ := hInv
    exact ⟨c1, c2, c3, c4, c5, c6⟩
  have hPD : PD (st.applyEv (Ev.setCmd sess chan rate)) tid := by
    rw [applyEv_setCmd]
    exact start_metering_kills _ sess chan rate tid hInv0 hreg
  have hInv' : (st.applyEv (Ev.setCmd sess chan rate)).Inv := Inv_applyEv st _ hInv
  refine ⟨hPD.2, ?_, ?_⟩
  · intro evs
    exact (PD_run _ evs tid hPD).2
  · intro evs
    exact Inv_oneLive _ (Inv_run _ evs hInv')

/-- Witness for C1: in the concrete state with task 0 metering (session 1,
channel 1), replacing the rate leaves task 0 with no further emissions even
after both task 0 and the replacement task 1 are stepped. -/
theorem setRate_cancels_previous_task_witness :
    countEmit ((schedEx.applyEv (Ev.setCmd 1 1 1000)).run [Ev.taskStep 0, Ev.taskStep 1]) 0
      = countEmit (schedEx.applyEv (Ev.setCmd 1 1 1000)) 0 :=
  (setRate_cancels_previous_task schedEx 1 1 0 1000 (by decide) (by decide)).2.1
    [Ev.taskStep 0, Ev.taskStep 1]

/-! ## Claim C6 -/

/-- C6: on end-of-stream or I/O error, `handle_client`'s teardown cancels
every metering task owned by the session, removes the session's entry from
the task registry (leaving zero live tasks for it), and only then releases
the socket: the log gains the cancellations strictly before the socket
close. -/
theorem disconnect_cancels_all_session_tasks (st : Sched) (sess : ℕ) (hInv : st.Inv) :
    alook (st.applyEv (Ev.disconnect sess)).registry sess = none
    ∧ (∀ p ∈ (st.applyEv (Ev.disconnect sess)).tasks, p.2.sess = sess → ¬liveT p.2)
    ∧ (∃ cs : List Eff,
        (st.applyEv (Ev.disconnect sess)).log = st.log ++ cs ++ [Eff.sockClose sess]
        ∧ ∀ e ∈ cs, ∃ x, e = Eff.cancelT x) := by
  obtain ⟨c1, c2, c3, c4, c5, c6⟩ := hInv
  rw [applyEv_disconnect]
  unfold Sched.sock_close
  cases halt : alook st.registry sess with
  | none =>
    rw [stop_all_eq_none _ _ halt]
    refine ⟨halt, ?_, [], by simp, by simp⟩
    intro p hp hps hl
    have := c3 p hp hl
    rw [hps] at this
    rw [alook2_none_left _ _ _ halt] at this
    cases this
  | some inner =>
    rw [stop_all_eq_some _ _ _ halt]
    refine ⟨?_, ?_, ?_⟩
    · show alook (adel (st.cancelAll (inner.map Prod.snd)).registry sess) sess = none
      rw [cancelAll_registry]
      exact alook_adel_self_nodup _ _ c5
    · intro p hp hps hl
      obtain ⟨pk, pv⟩ := p
      have hp' : (pk, pv) ∈ (st.cancelAll (inner.map Prod.snd)).tasks := hp
      have hl' : liveT pv := hl
      have hps' : pv.sess = sess := hps
      have hnd' : ((st.cancelAll (inner.map Prod.snd)).tasks.map Prod.fst).Nodup := by
        rw [cancelAll_map_fst]
        exact c2
      have halp := alook_of_mem_nodup _ _ _ hnd' hp'
      rw [cancelAll_alook_tasks] at halp
      split at halp
      case _ hin =>
        cases h2 : alook st.tasks pk with
        | none => rw [h2] at halp; cases halp
        | some t0 =>
          rw [h2] at halp
          simp only [Option.map_some'] at halp
          rw [Option.some_inj] at halp
          have := hl'.1
          rw [← halp] at this
          cases this
      case _ hnin =>
        have hpm : (pk, pv) ∈ st.tasks := mem_of_alook _ _ _ halp
        have hold := c3 (pk, pv) hpm hl'
        rw [hps'] at hold
        rw [alook2_some_left _ _ _ _ halt] at hold
        exact hnin (snd_mem_of_alook _ _ _ hold)
    · refine ⟨(inner.map Prod.snd).map Eff.cancelT, ?_, ?_⟩
      · show (st.cancelAll (inner.map Prod.snd)).log ++ [Eff.sockClose sess] = _
        rw [cancelAll_log, List.append_assoc]
      · intro e he
        rcases List.mem_map.mp he with ⟨x, _, hx⟩
        exact ⟨x, hx.symm⟩

/-- Witness for C6: disconnecting session 1 in the concrete two-session
state removes its registry entry. -/
theorem disconnect_cancels_all_session_tasks_witness :
    alook (schedEx2.applyEv (Ev.disconnect 1)).registry 1 = none :=
  (disconnect_cancels_all_session_tasks schedEx2 1 (by decide)).1

/-! ## Command-dispatch lemmas

Each lemma reduces `process_command` on a well-formed command of one shape
to its branch result. -/

theorem shure_get_all (sim : ShureSim) (elapsed : ℚ) (cmd : String)
    (cstr : String) (ch : ℤ)
    (htok : tokens cmd = ["GET", cstr, "ALL"])
    (hch : pyInt cstr = some ch) (h1 : 1 ≤ ch) (h2 : ch ≤ (sim.num_channels : ℤ)) :
    sim.process_command elapsed cmd =
      ⟨some (String.join (((sim.get_state ch.toNat elapsed).1).map
          (fun kv => mkRep ch kv.1 kv.2))),
       none, none, (sim.get_state ch.toNat elapsed).2⟩ := by
  have hb : ¬(ch < 1 ∨ (sim.num_channels : ℤ) < ch) := by
    push_neg
    exact ⟨h1, h2⟩
  unfold ShureSim.process_command
  rw [htok]
  simp only [List.length_cons, List.length_nil, List.getD_cons_zero, List.getD_cons_succ]
  rw [hch]
  dsimp only
  rw [if_neg hb]
  rw [if_neg (show ¬(0 + 1 + 1 + 1 < 3) by norm_num)]
  simp only [if_true]

theorem shure_get_param (sim : ShureSim) (elapsed : ℚ) (cmd : String)
    (cstr param : String) (ch : ℤ)
    (htok : tokens cmd = ["GET", cstr, param])
    (hch : pyInt cstr = some ch) (h1 : 1 ≤ ch) (h2 : ch ≤ (sim.num_channels : ℤ))
    (hall : ¬(param = "ALL")) :
    sim.process_command elapsed cmd =
      (match alook (sim.get_state ch.toNat elapsed).1 param with
       | some value =>
         ⟨some (mkRep ch param value), none, none, (sim.get_state ch.toNat elapsed).2⟩
       | none => ⟨none, none, none, (sim.get_state ch.toNat elapsed).2⟩) := by
  have hb : ¬(ch < 1 ∨ (sim.num_channels : ℤ) < ch) := by
    push_neg
    exact ⟨h1, h2⟩
  unfold ShureSim.process_command
  rw [htok]
  simp only [List.length_cons, List.length_nil, List.getD_cons_zero, List.getD_cons_succ]
  rw [hch]
  dsimp only
  rw [if_neg hb]
  rw [if_neg (show ¬(0 + 1 + 1 + 1 < 3) by norm_num)]
  simp only [if_true]
  rw [if_neg hall]

theorem shure_set_meter (sim : ShureSim) (elapsed : ℚ) (cmd : String)
    (cstr : String) (rest : List String) (ch : ℤ)
    (htok : tokens cmd = "SET" :: cstr :: "METER_RATE" :: rest) (hrest : ¬(rest = []))
    (hch : pyInt cstr = some ch) (h1 : 1 ≤ ch) (h2 : ch ≤ (sim.num_channels : ℤ)) :
    sim.process_command elapsed cmd =
      (match pyInt (String.intercalate " " rest) with
       | some rate =>
         ⟨some (mkRep ch "METER_RATE" (String.intercalate " " rest)), some ch, some rate,
           { (sim.get_state ch.toNat elapsed).2 with
               meter_rate :=
                 aset ((sim.get_state ch.toNat elapsed).2).meter_rate ch.toNat rate }⟩
       | none => ⟨none, none, none, (sim.get_state ch.toNat elapsed).2⟩) := by
  have hb : ¬(ch < 1 ∨ (sim.num_channels : ℤ) < ch) := by
    push_neg
    exact ⟨h1, h2⟩
  have hlen : 0 < rest.length := List.length_pos.mpr hrest
  unfold ShureSim.process_command
  rw [htok]
  simp only [List.length_cons, List.getD_cons_zero, List.getD_cons_succ,
    List.drop_succ_cons, List.drop_zero]
  rw [hch]
  dsimp only
  rw [if_neg hb]
  rw [if_neg (show ¬("SET" = "GET") by decide)]
  rw [if_neg (show ¬(rest.length + 1 + 1 + 1 < 3) by omega)]
  simp only [if_true]
  rw [if_pos (show 4 ≤ rest.length + 1 + 1 + 1 by omega)]

theorem shure_set_param (sim : ShureSim) (elapsed : ℚ) (cmd : String)
    (cstr param : String) (rest : List String) (ch : ℤ)
    (htok : tokens cmd = "SET" :: cstr :: param :: rest) (hrest : ¬(rest = []))
    (hch : pyInt cstr = some ch) (h1 : 1 ≤ ch) (h2 : ch ≤ (sim.num_channels : ℤ))
    (hmr : ¬(param = "METER_RATE")) :
    sim.process_command elapsed cmd =
      ⟨some (mkRep ch param (String.intercalate " " rest)), none, none,
        (match alook ((sim.get_state ch.toNat elapsed).2).channels ch.toNat with
         | some cs =>
           { (sim.get_state ch.toNat elapsed).2 with
               channels := aset ((sim.get_state ch.toNat elapsed).2).channels ch.toNat
                 ({ cs with regs := aset cs.regs param (String.intercalate " " rest) }) }
         | none => (sim.get_state ch.toNat elapsed).2)⟩ := by
  have hb : ¬(ch < 1 ∨ (sim.num_channels : ℤ) < ch) := by
    push_neg
    exact ⟨h1, h2⟩
  have hlen : 0 < rest.length := List.length_pos.mpr hrest
  unfold ShureSim.process_command
  rw [htok]
  simp only [List.length_cons, List.getD_cons_zero, List.getD_cons_succ,
    List.drop_succ_cons, List.drop_zero]
  rw [hch]
  dsimp only
  rw [if_neg hb]
  rw [if_neg (show ¬("SET" = "GET") by decide)]
  rw [if_neg (show ¬(rest.length + 1 + 1 + 1 < 3) by omega)]
  simp only [if_true]
  rw [if_pos (show 4 ≤ rest.length + 1 + 1 + 1 by omega)]
  rw [if_neg hmr]

theorem p10t_get_all (sim : P10TSim) (draw : ℕ × ℕ) (cmd : String)
    (cstr : String) (ch : ℤ)
    (htok : tokens cmd = ["GET", cstr, "ALL"])
    (hch : pyInt cstr = some ch) (h1 : 1 ≤ ch) (h2 : ch ≤ (sim.num_channels : ℤ)) :
    sim.process_command draw cmd =
      ⟨some (String.join ((((sim.regen ch.toNat draw).get_state ch.toNat)).map
          (fun kv => mkRep ch kv.1 kv.2))),
       none, none, sim.regen ch.toNat draw⟩ := by
  have hb : ¬(ch < 1 ∨ (sim.num_channels : ℤ) < ch) := by
    push_neg
    exact ⟨h1, h2⟩
  unfold P10TSim.process_command
  rw [htok]
  simp only [List.length_cons, List.length_nil, List.getD_cons_zero, List.getD_cons_succ]
  rw [hch]
  dsimp only
  rw [if_neg hb]
  rw [if_neg (show ¬(0 + 1 + 1 + 1 < 3) by norm_num)]
  simp only [if_true]

theorem p10t_get_param (sim : P10TSim) (draw : ℕ × ℕ) (cmd : String)
    (cstr param : String) (ch : ℤ)
    (htok : tokens cmd = ["GET", cstr, param])
    (hch : pyInt cstr = some ch) (h1 : 1 ≤ ch) (h2 : ch ≤ (sim.num_channels : ℤ))
    (hall : ¬(param = "ALL")) :
    sim.process_command draw cmd =
      (if amem (sim.get_state ch.toNat) param then
         (if param = "AUDIO_IN_LVL_L" ∨ param = "AUDIO_IN_LVL_R" then
            ⟨some (mkRep ch param
                ((alook ((sim.regen ch.toNat draw).get_state ch.toNat) param).getD "")),
             none, none, sim.regen ch.toNat draw⟩
          else
            ⟨some (mkRep ch param ((alook (sim.get_state ch.toNat) param).getD "")),
             none, none, sim⟩)
       else ⟨none, none, none, sim⟩) := by
  have hb : ¬(ch < 1 ∨ (sim.num_channels : ℤ) < ch) := by
    push_neg
    exact ⟨h1, h2⟩
  unfold P10TSim.process_command
  rw [htok]
  simp only [List.length_cons, List.length_nil, List.getD_cons_zero, List.getD_cons_succ]
  rw [hch]
  dsimp only
  rw [if_neg hb]
  rw [if_neg (show ¬(0 + 1 + 1 + 1 < 3) by norm_num)]
  simp only [if_true]
  rw [if_neg hall]

theorem p10t_set_meter (sim : P10TSim) (draw : ℕ × ℕ) (cmd : String)
    (cstr : String) (rest : List String) (ch : ℤ)
    (htok : tokens cmd = "SET" :: cstr :: "METER_RATE" :: rest) (hrest : ¬(rest = []))
    (hch : pyInt cstr = some ch) (h1 : 1 ≤ ch) (h2 : ch ≤ (sim.num_channels : ℤ)) :
    sim.process_command draw cmd =
      (match pyInt (String.intercalate " " rest) with
       | some rate =>
         ⟨some (mkRep ch "METER_RATE" (String.intercalate " " rest)), some ch, some rate,
           { sim with meter_rate := aset sim.meter_rate ch.toNat rate }⟩
       | none => ⟨none, none, none, sim⟩) := by
  have hb : ¬(ch < 1 ∨ (sim.num_channels : ℤ) < ch) := by
    push_neg
    exact ⟨h1, h2⟩
  have hlen : 0 < rest.length := List.length_pos.mpr hrest
  unfold P10TSim.process_command
  rw [htok]
  simp only [List.length_cons, List.getD_cons_zero, List.getD_cons_succ,
    List.drop_succ_cons, List.drop_zero]
  rw [hch]
  dsimp only
  rw [if_neg hb]
  rw [if_neg (show ¬("SET" = "GET") by decide)]
  rw [if_neg (show ¬(rest.length + 1 + 1 + 1 < 3) by omega)]
  simp only [if_true]
  rw [if_pos (show 4 ≤ rest.length + 1 + 1 + 1 by omega)]

theorem p10t_set_param (sim : P10TSim) (draw : ℕ × ℕ) (cmd : String)
    (cstr param : String) (rest : List String) (ch : ℤ)
    (htok : tokens cmd = "SET" :: cstr :: param :: rest) (hrest : ¬(rest = []))
    (hch : pyInt cstr = some ch) (h1 : 1 ≤ ch) (h2 : ch ≤ (sim.num_channels : ℤ))
    (hmr : ¬(param = "METER_RATE")) :
    sim.process_command draw cmd =
      ⟨some (mkRep ch param (String.intercalate " " rest)), none, none,
        (if amem (sim.get_state ch.toNat) param then
           (match alook sim.channels ch.toNat with
            | some cs =>
              { sim with
                  channels := aset sim.channels ch.toNat
                    ({ cs with
                        regs := aset cs.regs param (String.intercalate " " rest) }) }
            | none => sim)
         else sim)⟩ := by
  have hb : ¬(ch < 1 ∨ (sim.num_channels : ℤ) < ch) := by
    push_neg
    exact ⟨h1, h2⟩
  have hlen : 0 < rest.length := List.length_pos.mpr hrest
  unfold P10TSim.process_command
  rw [htok]
  simp only [List.length_cons, List.getD_cons_zero, List.getD_cons_succ,
    List.drop_succ_cons, List.drop_zero]
  rw [hch]
  dsimp only
  rw [if_neg hb]
  rw [if_neg (show ¬("SET" = "GET") by decide)]
  rw [if_neg (show ¬(rest.length + 1 + 1 + 1 < 3) by omega)]
  simp only [if_true]
  rw [if_pos (show 4 ≤ rest.length + 1 + 1 + 1 by omega)]
  rw [if_neg hmr]

theorem ensure_rates (st : Sched) (sess : ℕ) : (st.ensure_sess sess).rates = st.rates := by
  unfold Sched.ensure_sess
  split <;> rfl

theorem cancel_existing_rates (st : Sched) (sess chan : ℕ) :
    (st.cancel_existing sess chan).rates = st.rates := by
  cases hreg : alook2 st.registry sess chan with
  | none => rw [cancel_existing_eq_none _ _ _ hreg]
  | some tid => rw [cancel_existing_eq_some _ _ _ _ hreg]

theorem start_metering_rates (st : Sched) (sess chan : ℕ) (rate : ℤ) :
    (st.start_metering sess chan rate).rates = st.rates := by
  unfold Sched.start_metering
  split
  · show ((((st.ensure_sess sess).cancel_existing sess chan)).create_task sess chan).rates = _
    unfold Sched.create_task
    rw [show (Sched.rates { (st.ensure_sess sess).cancel_existing sess chan with
        tasks := _, registry := _, nextId := _ })
      = ((st.ensure_sess sess).cancel_existing sess chan).rates from rfl]
    rw [cancel_existing_rates, ensure_rates]
  · rw [cancel_existing_rates, ensure_rates]

/-! ## Claim C9 -/

/-- C9: the meter rate is one shared value per channel, not per
(connection, channel): `process_command` stores a SET METER_RATE value in
the channel-keyed dict `self.meter_rate` shared by all connections and
reports `(channel, rate)`; in the scheduler, after any one session
processes `SET chan METER_RATE 0` the shared rate for `chan` is 0 and the
next resumption of any metering task on `chan` — whichever session owns it —
terminates without emitting. -/
theorem meter_rate_is_shared_per_channel
    (st : Sched) (sess chan : ℕ)
    (ssim : ShureSim) (elapsed : ℚ) (cmd : String) (cstr vstr : String) (ch rate : ℤ)
    (htok : tokens cmd = ["SET", cstr, "METER_RATE", vstr])
    (hch : pyInt cstr = some ch) (h1 : 1 ≤ ch) (h2 : ch ≤ (ssim.num_channels : ℤ))
    (hv : pyInt vstr = some rate) :
    ((ssim.process_command elapsed cmd).sim.meter_rate
        = aset ((ssim.get_state ch.toNat elapsed).2).meter_rate ch.toNat rate
      ∧ (ssim.process_command elapsed cmd).rchannel = some ch
      ∧ (ssim.process_command elapsed cmd).rrate = some rate)
    ∧ alook (st.applyEv (Ev.setCmd sess chan 0)).rates chan = some 0
    ∧ (∀ tid t,
        alook (st.applyEv (Ev.setCmd sess chan 0)).tasks tid = some t → t.chan = chan →
        ((st.applyEv (Ev.setCmd sess chan 0)).meter_step tid).log
            = (st.applyEv (Ev.setCmd sess chan 0)).log
          ∧ ∀ t',
              alook ((st.applyEv (Ev.setCmd sess chan 0)).meter_step tid).tasks tid = some t' →
              (t'.cancelled = true ∨ t'.finished = true)) := by
  have hred := shure_set_meter ssim elapsed cmd cstr [vstr] ch htok (by simp) hch h1 h2
  rw [show String.intercalate " " [vstr] = vstr from rfl, hv] at hred
  have hrate0 : alook (st.applyEv (Ev.setCmd sess chan 0)).rates chan = some 0 := by
    rw [applyEv_setCmd, start_metering_rates]
    exact alook_aset_self _ _ _
  refine ⟨⟨?_, ?_, ?_⟩, hrate0, ?_⟩
  · rw [hred]
  · rw [hred]
  · rw [hred]
  · intro tid t halt hchan
    rw [meter_step_eq_some _ _ _ halt]
    by_cases hfin : t.finished = true
    · rw [if_pos hfin]
      refine ⟨rfl, ?_⟩
      intro t' ht'
      rw [halt] at ht'
      rw [Option.some_inj] at ht'
      right
      rw [← ht']
      exact hfin
    · rw [if_neg hfin]
      by_cases hcan : t.cancelled = true
      · rw [if_pos hcan]
        refine ⟨rfl, ?_⟩
        intro t' ht'
        have ht2 : alook (finishTask (st.applyEv (Ev.setCmd sess chan 0)).tasks tid) tid
            = some t' := ht'
        rw [alook_finishTask, if_pos rfl, halt] at ht2
        simp only [Option.map_some'] at ht2
        rw [Option.some_inj] at ht2
        right
        rw [← ht2]
      · rw [if_neg hcan]
        rw [hchan, hrate0]
        dsimp only
        rw [if_pos rfl]
        refine ⟨rfl, ?_⟩
        intro t' ht'
        have ht2 : alook (finishTask (st.applyEv (Ev.setCmd sess chan 0)).tasks tid) tid
            = some t' := ht'
        rw [alook_finishTask, if_pos rfl, halt] at ht2
        simp only [Option.map_some'] at ht2
        rw [Option.some_inj] at ht2
        right
        rw [← ht2]

/-- Witness for C9: one session setting channel 1's meter rate to 0 zeroes
the single shared rate entry read by both sessions' loops. -/
theorem meter_rate_is_shared_per_channel_witness :
    alook (schedEx2.applyEv (Ev.setCmd 1 1 0)).rates 1 = some 0 :=
  (meter_rate_is_shared_per_channel schedEx2 1 1 shureSimEx 0 "< SET 1 METER_RATE 0 >"
    "1" "0" 1 0 (by decide) (by decide) (by decide) (by decide) (by decide)).2.1

/-! ## Battery lemmas -/

theorem pyDivTrunc_eq_floor (q : ℚ) (d : ℕ) (hq : 0 ≤ q) :
    pyDivTrunc q d = ⌊q / (d : ℚ)⌋ := by
  unfold pyDivTrunc
  rw [if_pos hq]
  have h1 : (q.num : ℚ) / ((q.den * d : ℕ) : ℚ) = q / d := by
    push_cast
    rw [← div_div, Rat.num_div_den]
  rw [← h1, Rat.floor_intCast_div_natCast]

theorem pyDivTrunc_mono (d : ℕ) (t1 t2 : ℚ) (h0 : 0 ≤ t1) (h12 : t1 ≤ t2)
    (hd : 0 < d) : pyDivTrunc t1 d ≤ pyDivTrunc t2 d := by
  rw [pyDivTrunc_eq_floor _ _ h0, pyDivTrunc_eq_floor _ _ (le_trans h0 h12)]
  have hdq : (0 : ℚ) < (d : ℚ) := by exact_mod_cast hd
  exact Int.floor_le_floor ((div_le_div_iff_of_pos_right hdq).mpr h12)

theorem battBars_nonneg (s : ℕ) (t : ℚ) : 0 ≤ battBars s t := le_max_left 0 _

theorem battBars_mono (s : ℕ) (t1 t2 : ℚ) (h0 : 0 ≤ t1) (h12 : t1 ≤ t2) :
    battBars s t2 ≤ battBars s t1 := by
  unfold battBars
  have := pyDivTrunc_mono 7200 t1 t2 h0 h12 (by norm_num)
  omega

theorem battCharge_eq (s : ℕ) (t : ℚ) : battCharge s t = 20 * battBars s t := by
  unfold battCharge pyDivTruncInt
  have hb := battBars_nonneg s t
  rw [if_pos (by positivity)]
  rw [show (100 : ℤ) * battBars s t = 5 * (20 * battBars s t) by ring]
  rw [show ((5 : ℕ) : ℤ) = (5 : ℤ) from rfl]
  exact Int.mul_ediv_cancel_left _ (by norm_num)

/-! ## Claim C5 -/

/-- C5 counterexample: the remaining-runtime register is not recomputed from
the discrete bar level — at elapsed times 0 s and 3600 s the bar level is
identical (no bar drained yet) while the runtime register differs (480 vs
420 minutes), so runtime is a function of elapsed time, not of the level. -/
theorem battRuntime_not_from_level_cex :
    battBars 5 0 = battBars 5 3600 ∧ ¬(battRemaining 480 0 = battRemaining 480 3600) := by
  constructor
  · decide
  · decide

/-- C5 (amended): for elapsed times `0 ≤ t1 ≤ t2` the battery registers are
non-increasing and never negative: the discrete bar level is
`max 0 (start - ⌊t/7200⌋)` (one bar per 7200 s, floored at zero); the
charge percentage is recomputed from the discrete level (it equals
`20 * bars`); the remaining runtime is recomputed from elapsed minutes
directly; and `update_battery` stores exactly these values in the
`BATT_BARS`, `BATT_RUN_TIME` and `BATT_CHARGE` registers. -/
theorem battery_registers_monotone (cs : SChan) (t1 t2 : ℚ)
    (h0 : 0 ≤ t1) (h12 : t1 ≤ t2) :
    battBars cs.battery_start t2 ≤ battBars cs.battery_start t1
    ∧ 0 ≤ battBars cs.battery_start t2
    ∧ battRemaining cs.runtime_minutes t2 ≤ battRemaining cs.runtime_minutes t1
    ∧ 0 ≤ battRemaining cs.runtime_minutes t2
    ∧ battCharge cs.battery_start t2 ≤ battCharge cs.battery_start t1
    ∧ 0 ≤ battCharge cs.battery_start t2
    ∧ battBars cs.battery_start t1 = max 0 ((cs.battery_start : ℤ) - ⌊t1 / 7200⌋)
    ∧ battCharge cs.battery_start t1 = 20 * battBars cs.battery_start t1
    ∧ alook (cs.update_battery t1).regs "BATT_BARS"
        = some (padZero 3 (battBars cs.battery_start t1).toNat)
    ∧ alook (cs.update_battery t1).regs "BATT_RUN_TIME"
        = some (padZero 5 (battRemaining cs.runtime_minutes t1).toNat)
    ∧ alook (cs.update_battery t1).regs "BATT_CHARGE"
        = some (padZero 3 (battCharge cs.battery_start t1).toNat) := by
  have hbars := battBars_mono cs.battery_start t1 t2 h0 h12
  have hrem : battRemaining cs.runtime_minutes t2 ≤ battRemaining cs.runtime_minutes t1 := by
    unfold battRemaining
    have := pyDivTrunc_mono 60 t1 t2 h0 h12 (by norm_num)
    omega
  refine ⟨hbars, battBars_nonneg _ _, hrem, le_max_left 0 _, ?_, ?_, ?_, battCharge_eq _ _,
    ?_, ?_, ?_⟩
  · rw [battCharge_eq, battCharge_eq]
    omega
  · rw [battCharge_eq]
    have := battBars_nonneg cs.battery_start t2
    omega
  · unfold battBars
    rw [pyDivTrunc_eq_floor _ _ h0]
    norm_num
  · unfold SChan.update_battery
    dsimp only
    rw [alook_aset_ne _ _ _ _ (by decide), alook_aset_ne _ _ _ _ (by decide),
      alook_aset_self]
  · unfold SChan.update_battery
    dsimp only
    rw [alook_aset_ne _ _ _ _ (by decide), alook_aset_self]
  · unfold SChan.update_battery
    dsimp only
    rw [alook_aset_self]

/-- Witness for C5 (amended): concrete monotone drop between 3600 s and
7300 s on a default channel. -/
theorem battery_registers_monotone_witness :
    battBars (SChan.init 1 shureDrawEx).battery_start 7300
      ≤ battBars (SChan.init 1 shureDrawEx).battery_start 3600 :=
  (battery_registers_monotone (SChan.init 1 shureDrawEx) 3600 7300
    (by decide) (by decide)).1

/-! ## Frame-splitting lemmas -/

theorem splitGtAux_frag (frag rest acc : List Char)
    (h : ∀ c ∈ frag, ¬(c = '>')) :
    splitGtAux (frag ++ '>' :: rest) acc = (acc.reverse ++ frag) :: splitGtAux rest [] := by
  induction frag generalizing acc with
  | nil => simp [splitGtAux]
  | cons c f ih =>
    have hc : ¬(c = '>') := h c (List.mem_cons_self _ _)
    simp only [List.cons_append, splitGtAux, if_neg hc, List.append_eq]
    rw [ih (c :: acc) (fun x hx => h x (List.mem_cons_of_mem _ hx))]
    simp

theorem dropWhile_eq_self_of_head (p : Char → Bool) (l : List Char)
    (h : ∀ c, l.head? = some c → ¬(p c = true)) : l.dropWhile p = l := by
  cases l with
  | nil => rfl
  | cons c t =>
    have hc := h c rfl
    simp only [List.dropWhile_cons]
    rw [if_neg hc]

theorem stripWS_eq_self (l : List Char)
    (hh : ∀ c, l.head? = some c → ¬(pyIsSpace c = true))
    (hl : ∀ c, l.getLast? = some c → ¬(pyIsSpace c = true)) : stripWS l = l := by
  unfold stripWS
  rw [dropWhile_eq_self_of_head _ _ hh]
  rw [dropWhile_eq_self_of_head _ _ (fun c hc => hl c (by rwa [List.head?_reverse] at hc))]
  exact List.reverse_reverse l

theorem stripWS_append_space (l : List Char) : stripWS (l ++ [' ']) = stripWS l := by
  unfold stripWS
  rw [List.dropWhile_append]
  split
  case isTrue hemp =>
    have h0 : l.dropWhile (fun c => pyIsSpace c) = [] := by
      simpa using hemp
    rw [h0]
    simp [List.dropWhile, pyIsSpace]
  case isFalse hemp =>
    rw [List.reverse_append]
    simp only [List.reverse_cons, List.reverse_nil, List.nil_append, List.singleton_append]
    simp only [List.dropWhile_cons]
    rw [if_pos (by simp [pyIsSpace])]

/-- Strip recovers the body from a `body ++ " "` fragment when the body is
strip-stable. -/
theorem stripWS_frag (l : List Char)
    (hh : ∀ c, l.head? = some c → ¬(pyIsSpace c = true))
    (hl : ∀ c, l.getLast? = some c → ¬(pyIsSpace c = true)) :
    stripWS (l ++ [' ']) = l := by
  rw [stripWS_append_space, stripWS_eq_self l hh hl]

theorem splitGt_flatten_bodies (bodies : List (List Char))
    (h : ∀ b ∈ bodies, ∀ c ∈ b, ¬(c = '>')) :
    splitGtAux (bodies.map (fun b => b ++ [' ', '>'])).flatten []
      = bodies.map (fun b => b ++ [' ']) ++ [[]] := by
  induction bodies with
  | nil => simp [splitGtAux]
  | cons b bs ih =>
    simp only [List.map_cons, List.flatten_cons]
    have hb : ∀ c ∈ b ++ [' '], ¬(c = '>') := by
      intro c hc
      rcases List.mem_append.mp hc with h1 | h1
      · exact h b (List.mem_cons_self _ _) c h1
      · simp only [List.mem_singleton] at h1
        subst h1
        decide
    have hsplit : b ++ [' ', '>'] ++ (bs.map (fun b => b ++ [' ', '>'])).flatten
        = (b ++ [' ']) ++ '>' :: (bs.map (fun b => b ++ [' ', '>'])).flatten := by
      simp
    rw [hsplit, splitGtAux_frag _ _ _ hb]
    rw [ih (fun x hx => h x (List.mem_cons_of_mem _ hx))]
    simp

/-- Main recovery lemma: a concatenation of `body ++ " >"` messages with
clean bodies splits back into exactly those bodies. -/
theorem recoverMsgs_join (bodies : List String)
    (h : ∀ b ∈ bodies, cleanValB b = true) :
    recoverMsgs (String.join (bodies.map (fun b => b ++ " >"))) = bodies := by
  unfold recoverMsgs splitGt
  rw [String.join_eq]
  have hdata : ((bodies.map (fun b => b ++ " >")).map String.data).flatten
      = ((bodies.map String.data).map (fun b => b ++ [' ', '>'])).flatten := by
    congr 1
    rw [List.map_map, List.map_map]
    apply List.map_congr_left
    intro b _
    show (b ++ " >").data = b.data ++ [' ', '>']
    rw [String.data_append]
  rw [show (String.mk ((bodies.map (fun b => b ++ " >")).map String.data).flatten).toList
      = ((bodies.map (fun b => b ++ " >")).map String.data).flatten from rfl]
  rw [hdata]
  rw [splitGt_flatten_bodies]
  · rw [List.map_append, List.filter_append]
    have hlast : (([([] : List Char)].map (fun l => String.mk (stripWS l))).filter
        (fun t => !(t = ""))) = [] := by
      simp [stripWS, List.filter]
    rw [hlast, List.append_nil]
    have hstrip : ∀ b ∈ bodies, String.mk (stripWS (b.data ++ [' '])) = b := by
      intro b hb
      have hc := h b hb
      simp only [cleanValB, Bool.and_eq_true, Bool.not_eq_true',
        decide_eq_false_iff_not] at hc
      obtain ⟨⟨⟨hne, hgt⟩, hhead⟩, hlast2⟩ := hc
      rw [stripWS_frag]
      · intro c hcc
        have hh2 : pyIsSpace (b.data.head?.getD 'x') = false := by
          rw [← List.headD_eq_head?_getD]
          exact hhead
        rw [hcc] at hh2
        simp only [Option.getD_some] at hh2
        simp [hh2]
      · intro c hcc
        have hh2 : pyIsSpace (b.data.getLast?.getD 'x') = false := by
          rw [← List.getLastD_eq_getLast?]
          exact hlast2
        rw [hcc] at hh2
        simp only [Option.getD_some] at hh2
        simp [hh2]
    have hmaps : ∀ (L : List String), (∀ b ∈ L, String.mk (stripWS (b.data ++ [' '])) = b) →
        List.map (fun l => String.mk (stripWS l))
          (List.map (fun b => b ++ [' ']) (List.map String.data L)) = L := by
      intro L
      induction L with
      | nil => intro _; rfl
      | cons b bs ih =>
        intro hL
        simp only [List.map_cons, List.cons.injEq]
        exact ⟨hL b (List.mem_cons_self _ _), ih (fun x hx => hL x (List.mem_cons_of_mem _ hx))⟩
    rw [hmaps bodies hstrip]
    apply List.filter_eq_self.mpr
    intro b hb
    have hc := h b hb
    simp only [cleanValB, Bool.and_eq_true, Bool.not_eq_true',
      decide_eq_false_iff_not] at hc
    have hne := hc.1.1.1
    simp only [Bool.not_eq_true', decide_eq_false_iff_not]
    intro hb0
    exact hne (by rw [hb0]; rfl)
  · intro b hb c hcb
    rcases List.mem_map.mp hb with ⟨s, hs, hsb⟩
    have hc := h s hs
    simp only [cleanValB, Bool.and_eq_true] at hc
    have hgt := hc.1.1.2
    unfold noGtB at hgt
    rw [List.all_eq_true] at hgt
    have := hgt c (by rw [← hsb] at hcb; exact hcb)
    simpa using this

/-! ## Character-level cleanliness of the rendered values -/

theorem digitChar_clean (d : ℕ) : ¬(digitChar d = '>') ∧ pyIsSpace (digitChar d) = false := by
  unfold digitChar
  split <;> exact (by decide)

theorem natToStrAux_chars (P : Char → Prop) (hP : ∀ d, P (digitChar d)) :
    ∀ fuel n acc, (∀ c ∈ acc, P c) → ∀ c ∈ natToStrAux fuel n acc, P c := by
  intro fuel
  induction fuel with
  | zero =>
    intro n acc hacc c hc
    exact hacc c hc
  | succ f ih =>
    intro n acc hacc c hc
    have hacc' : ∀ x ∈ digitChar (n % 10) :: acc, P x := by
      intro x hx
      rcases List.mem_cons.mp hx with h1 | h1
      · exact h1 ▸ hP _
      · exact hacc x h1
    simp only [natToStrAux] at hc
    by_cases hn : n < 10
    · rw [if_pos hn] at hc
      exact hacc' c hc
    · rw [if_neg hn] at hc
      exact ih (n / 10) _ hacc' c hc

theorem natToStr_chars (n : ℕ) :
    ∀ c ∈ (natToStr n).toList, ¬(c = '>') ∧ pyIsSpace c = false := by
  intro c hc
  exact natToStrAux_chars (fun c => ¬(c = '>') ∧ pyIsSpace c = false) digitChar_clean
    (n + 1) n [] (by intro x hx; cases hx) c hc

theorem natToStrAux_ne_nil :
    ∀ fuel n acc, (¬(fuel = 0) ∨ ¬(acc = [])) → ¬(natToStrAux fuel n acc = []) := by
  intro fuel
  induction fuel with
  | zero =>
    intro n acc h
    rcases h with h | h
    · exact absurd rfl h
    · exact h
  | succ f ih =>
    intro n acc _
    simp only [natToStrAux]
    by_cases hn : n < 10
    · rw [if_pos hn]
      simp
    · rw [if_neg hn]
      exact ih (n / 10) _ (Or.inr (by simp))

theorem natToStr_ne_nil (n : ℕ) : ¬((natToStr n).toList = []) :=
  natToStrAux_ne_nil (n + 1) n [] (Or.inl (by simp))

theorem headD_mem (l : List Char) (d : Char) (h : ¬(l = [])) : l.headD d ∈ l := by
  cases l with
  | nil => exact absurd rfl h
  | cons c t => exact List.mem_cons_self _ _

theorem getLastD_mem (l : List Char) (d : Char) (h : ¬(l = [])) : l.getLastD d ∈ l := by
  rw [List.getLastD_eq_getLast?]
  cases hl : l.getLast? with
  | none => exact absurd (List.getLast?_eq_none_iff.mp hl) h
  | some c =>
    simp only [Option.getD_some]
    exact List.mem_of_getLast?_eq_some hl

/-- Build `cleanValB` from non-emptiness and a per-character bound. -/
theorem cleanValB_of_chars (s : String) (hne : ¬(s.toList = []))
    (h : ∀ c ∈ s.toList, ¬(c = '>') ∧ pyIsSpace c = false) : cleanValB s = true := by
  simp only [cleanValB, Bool.and_eq_true, Bool.not_eq_true', decide_eq_false_iff_not]
  refine ⟨⟨⟨hne, ?_⟩, ?_⟩, ?_⟩
  · unfold noGtB
    rw [List.all_eq_true]
    intro c hc
    simpa using (h c hc).1
  · exact (h _ (headD_mem _ _ hne)).2
  · exact (h _ (getLastD_mem _ _ hne)).2

theorem cleanValB_natToStr (n : ℕ) : cleanValB (natToStr n) = true :=
  cleanValB_of_chars _ (natToStr_ne_nil n) (natToStr_chars n)

theorem intToStr_chars (i : ℤ) :
    ∀ c ∈ (intToStr i).toList, ¬(c = '>') ∧ pyIsSpace c = false := by
  intro c hc
  unfold intToStr at hc
  split at hc
  · simp only [String.toList, String.data_append] at hc
    rcases List.mem_append.mp hc with h1 | h1
    · have hdash : ∀ x ∈ "-".data, ¬(x = '>') ∧ pyIsSpace x = false := by decide
      exact hdash c h1
    · exact natToStr_chars _ c h1
  · exact natToStr_chars _ c hc

theorem intToStr_ne_nil (i : ℤ) : ¬((intToStr i).toList = []) := by
  unfold intToStr
  split
  · simp only [String.toList, String.data_append]
    simp
  · exact natToStr_ne_nil _

theorem cleanValB_intToStr (i : ℤ) : cleanValB (intToStr i) = true :=
  cleanValB_of_chars _ (intToStr_ne_nil i) (intToStr_chars i)

theorem padZero_chars (w n : ℕ) :
    ∀ c ∈ (padZero w n).toList, ¬(c = '>') ∧ pyIsSpace c = false := by
  intro c hc
  unfold padZero at hc
  simp only [String.toList, String.data_append] at hc
  rcases List.mem_append.mp hc with h1 | h1
  · have h1' : c ∈ List.replicate (w - (natToStr n).length) '0' := h1
    have : c = '0' := List.eq_of_mem_replicate h1'
    subst this
    exact (by decide)
  · exact natToStr_chars _ c h1

theorem padZero_ne_nil (w n : ℕ) : ¬((padZero w n).toList = []) := by
  unfold padZero
  simp only [String.toList, String.data_append]
  intro hc
  rcases List.append_eq_nil.mp hc with ⟨_, h2⟩
  exact natToStr_ne_nil n h2

theorem cleanValB_padZero (w n : ℕ) : cleanValB (padZero w n) = true :=
  cleanValB_of_chars _ (padZero_ne_nil w n) (padZero_chars w n)

/-- The body of a REP message is clean whenever its key and value are. -/
theorem cleanValB_mkRepCore (ch : ℤ) (k v : String)
    (hk : cleanValB k = true) (hv : cleanValB v = true) :
    cleanValB (mkRepCore ch k v) = true := by
  simp only [cleanValB, Bool.and_eq_true, Bool.not_eq_true',
    decide_eq_false_iff_not] at hk hv
  obtain ⟨⟨⟨hkne, hkgt⟩, _⟩, _⟩ := hk
  obtain ⟨⟨⟨hvne, hvgt⟩, _⟩, hvlast⟩ := hv
  have hdata : (mkRepCore ch k v).toList
      = "< REP ".toList ++ (intToStr ch).toList ++ " ".toList ++ k.toList
          ++ " ".toList ++ v.toList := by
    unfold mkRepCore
    simp [String.data_append]
  simp only [cleanValB, Bool.and_eq_true, Bool.not_eq_true', decide_eq_false_iff_not]
  refine ⟨⟨⟨?_, ?_⟩, ?_⟩, ?_⟩
  · rw [hdata]
    simp
  · unfold noGtB
    rw [List.all_eq_true]
    intro c hc
    rw [hdata] at hc
    simp only [List.append_assoc, List.mem_append] at hc
    have hlit1 : ∀ x ∈ "< REP ".toList, (!decide (x = '>')) = true := by decide
    have hlit2 : ∀ x ∈ " ".toList, (!decide (x = '>')) = true := by decide
    rcases hc with h1 | h1 | h1 | h1 | h1 | h1
    · exact hlit1 c h1
    · simpa using (intToStr_chars ch c h1).1
    · exact hlit2 c h1
    · have : noGtB k = true := hkgt
      unfold noGtB at this
      rw [List.all_eq_true] at this
      exact this c h1
    · exact hlit2 c h1
    · have : noGtB v = true := hvgt
      unfold noGtB at this
      rw [List.all_eq_true] at this
      exact this c h1
  · rw [hdata]
    rfl
  · rw [hdata]
    rw [List.getLastD_eq_getLast?]
    obtain ⟨c, hcl⟩ : ∃ c, v.toList.getLast? = some c := by
      cases hvl : v.toList.getLast? with
      | none => exact absurd (List.getLast?_eq_none_iff.mp hvl) hvne
      | some c => exact ⟨c, rfl⟩
    have hlast : ("< REP ".toList ++ (intToStr ch).toList ++ " ".toList ++ k.toList
        ++ " ".toList ++ v.toList).getLast? = some c := by
      rw [List.getLast?_append, hcl]
      rfl
    rw [hlast]
    simp only [Option.getD_some]
    have := hvlast
    rw [List.getLastD_eq_getLast?, hcl] at this
    simpa using this

/-! ## State-shape helper lemmas -/

theorem shure_get_state_present (sim : ShureSim) (cs : SChan) (ch : ℕ) (elapsed : ℚ)
    (h : alook sim.channels ch = some cs) :
    sim.get_state ch elapsed
      = ((cs.update_battery elapsed).regs,
         { sim with channels := aset sim.channels ch (cs.update_battery elapsed) }) := by
  unfold ShureSim.get_state
  rw [h]

theorem p10t_get_state_present (sim : P10TSim) (cs : PChan) (ch : ℕ)
    (h : alook sim.channels ch = some cs) : sim.get_state ch = cs.regs := by
  unfold P10TSim.get_state
  rw [h]

theorem p10t_regen_present (sim : P10TSim) (cs : PChan) (ch : ℕ) (draw : ℕ × ℕ)
    (h : alook sim.channels ch = some cs) :
    sim.regen ch draw
      = { sim with channels := aset sim.channels ch (cs.generate_audio_levels draw).2 } := by
  unfold P10TSim.regen
  rw [h]

theorem p10t_regen_get_state (sim : P10TSim) (cs : PChan) (ch : ℕ) (draw : ℕ × ℕ)
    (h : alook sim.channels ch = some cs) :
    (sim.regen ch draw).get_state ch = ((cs.generate_audio_levels draw).2).regs := by
  rw [p10t_regen_present sim cs ch draw h]
  unfold P10TSim.get_state
  show (match alook (aset sim.channels ch (cs.generate_audio_levels draw).2) ch with
    | none => [] | some cs => cs.regs) = _
  rw [alook_aset_self]

/-! ## Register-table cleanliness lemmas -/

theorem regsClean_mem (rs : Regs) (h : regsCleanB rs = true) (kv : String × String)
    (hm : kv ∈ rs) : cleanValB kv.1 = true ∧ cleanValB kv.2 = true := by
  unfold regsCleanB at h
  rw [List.all_eq_true] at h
  have := h kv hm
  simpa [Bool.and_eq_true] using this

theorem regsCleanB_aset (rs : Regs) (k v : String)
    (h : regsCleanB rs = true) (hk : cleanValB k = true) (hv : cleanValB v = true) :
    regsCleanB (aset rs k v) = true := by
  unfold regsCleanB
  rw [List.all_eq_true]
  intro kv hkv
  rcases aset_mem_cases rs k v kv hkv with h1 | h1
  · have := regsClean_mem rs h kv h1
    simp [Bool.and_eq_true, this.1, this.2]
  · subst h1
    simp [Bool.and_eq_true, hk, hv]

theorem regsCleanB_update_battery (cs : SChan) (elapsed : ℚ)
    (h : regsCleanB cs.regs = true) :
    regsCleanB (cs.update_battery elapsed).regs = true := by
  unfold SChan.update_battery
  dsimp only
  apply regsCleanB_aset
  · apply regsCleanB_aset
    · apply regsCleanB_aset
      · exact h
      · decide
      · exact cleanValB_padZero _ _
    · decide
    · exact cleanValB_padZero _ _
  · decide
  · exact cleanValB_padZero _ _

theorem regsCleanB_gen_audio (cs : PChan) (draw : ℕ × ℕ)
    (h : regsCleanB cs.regs = true) :
    regsCleanB ((cs.generate_audio_levels draw).2).regs = true := by
  unfold PChan.generate_audio_levels
  dsimp only
  apply regsCleanB_aset
  · apply regsCleanB_aset
    · exact h
    · decide
    · exact cleanValB_natToStr _
  · decide
  · exact cleanValB_natToStr _

/-- All REP bodies built from a clean register table are clean. -/
theorem bodies_clean (ch : ℤ) (rs : Regs) (h : regsCleanB rs = true) :
    ∀ b ∈ rs.map (fun kv => mkRepCore ch kv.1 kv.2), cleanValB b = true := by
  intro b hb
  rcases List.mem_map.mp hb with ⟨kv, hkv, hbe⟩
  have := regsClean_mem rs h kv hkv
  rw [← hbe]
  exact cleanValB_mkRepCore ch kv.1 kv.2 this.1 this.2

/-- Frame recovery for a register table's REP concatenation. -/
theorem recover_rep_table (ch : ℤ) (rs : Regs) (h : regsCleanB rs = true) :
    recoverMsgs (String.join (rs.map (fun kv => mkRep ch kv.1 kv.2)))
      = rs.map (fun kv => mkRepCore ch kv.1 kv.2) := by
  have hjoin : rs.map (fun kv => mkRep ch kv.1 kv.2)
      = (rs.map (fun kv => mkRepCore ch kv.1 kv.2)).map (fun b => b ++ " >") := by
    rw [List.map_map]
    rfl
  rw [hjoin]
  exact recoverMsgs_join _ (bodies_clean ch rs h)

/-! ## Claim C3 -/

/-- C3: for a valid channel, `GET channel ALL` returns one `< REP channel
register value >` message per register in the device's register set (the
channel's live register table — battery-updated for the Shure receiver,
audio-regenerated for the P10T transmitter), concatenated with no
separators, in the table's insertion order; splitting the output on `>`
(and stripping, as the micboard client does) recovers exactly the
individual message bodies, one per register. -/
theorem get_all_one_rep_per_register
    (ssim : ShureSim) (elapsed : ℚ) (scmd scstr : String) (sch : ℤ) (scs : SChan)
    (hstok : tokens scmd = ["GET", scstr, "ALL"])
    (hsch : pyInt scstr = some sch) (hs1 : 1 ≤ sch) (hs2 : sch ≤ (ssim.num_channels : ℤ))
    (hschan : alook ssim.channels sch.toNat = some scs)
    (hsclean : regsCleanB scs.regs = true)
    (psim : P10TSim) (draw : ℕ × ℕ) (pcmd pcstr : String) (pch : ℤ) (pcs : PChan)
    (hptok : tokens pcmd = ["GET", pcstr, "ALL"])
    (hpch : pyInt pcstr = some pch) (hp1 : 1 ≤ pch) (hp2 : pch ≤ (psim.num_channels : ℤ))
    (hpchan : alook psim.channels pch.toNat = some pcs)
    (hpclean : regsCleanB pcs.regs = true) :
    ((ssim.process_command elapsed scmd).response
        = some (String.join (((scs.update_battery elapsed).regs).map
            (fun kv => mkRep sch kv.1 kv.2)))
      ∧ recoverMsgs (String.join (((scs.update_battery elapsed).regs).map
            (fun kv => mkRep sch kv.1 kv.2)))
          = ((scs.update_battery elapsed).regs).map (fun kv => mkRepCore sch kv.1 kv.2)
      ∧ (recoverMsgs (String.join (((scs.update_battery elapsed).regs).map
            (fun kv => mkRep sch kv.1 kv.2)))).length
          = ((scs.update_battery elapsed).regs).length)
    ∧ ((psim.process_command draw pcmd).response
        = some (String.join (((pcs.generate_audio_levels draw).2.regs).map
            (fun kv => mkRep pch kv.1 kv.2)))
      ∧ recoverMsgs (String.join (((pcs.generate_audio_levels draw).2.regs).map
            (fun kv => mkRep pch kv.1 kv.2)))
          = ((pcs.generate_audio_levels draw).2.regs).map (fun kv => mkRepCore pch kv.1 kv.2)
      ∧ (recoverMsgs (String.join (((pcs.generate_audio_levels draw).2.regs).map
            (fun kv => mkRep pch kv.1 kv.2)))).length
          = ((pcs.generate_audio_levels draw).2.regs).length) := by
  have hsregs : (ssim.get_state sch.toNat elapsed).1 = (scs.update_battery elapsed).regs := by
    rw [shure_get_state_present ssim scs sch.toNat elapsed hschan]
  have hsrec := recover_rep_table sch ((scs.update_battery elapsed).regs)
    (regsCleanB_update_battery scs elapsed hsclean)
  have hpregs : ((psim.regen pch.toNat draw).get_state pch.toNat)
      = (pcs.generate_audio_levels draw).2.regs :=
    p10t_regen_get_state psim pcs pch.toNat draw hpchan
  have hprec := recover_rep_table pch ((pcs.generate_audio_levels draw).2.regs)
    (regsCleanB_gen_audio pcs draw hpclean)
  refine ⟨⟨?_, hsrec, ?_⟩, ⟨?_, hprec, ?_⟩⟩
  · rw [shure_get_all ssim elapsed scmd scstr sch hstok hsch hs1 hs2]
    rw [hsregs]
  · rw [hsrec, List.length_map]
  · rw [p10t_get_all psim draw pcmd pcstr pch hptok hpch hp1 hp2]
    rw [hpregs]
  · rw [hprec, List.length_map]

/-- Witness for C3: concrete `GET 1 ALL` on both example simulators. -/
theorem get_all_one_rep_per_register_witness :
    (shureSimEx.process_command 0 "< GET 1 ALL >").response
      = some (String.join ((((SChan.init 1 shureDrawEx).update_battery 0).regs).map
          (fun kv => mkRep 1 kv.1 kv.2))) :=
  (get_all_one_rep_per_register shureSimEx 0 "< GET 1 ALL >" "1" 1 (SChan.init 1 shureDrawEx)
    (by decide) (by decide) (by decide) (by decide) (by decide) (by decide)
    p10tSimEx (7, 9) "< GET 1 ALL >" "1" 1 (PChan.init 1 "active" 500000)
    (by decide) (by decide) (by decide) (by decide) (by decide) (by decide)).1.1

theorem join_singleton (s : String) : String.join [s] = s := by
  rw [String.join_eq]
  show String.mk (s.data ++ []) = s
  rw [List.append_nil]

/-- Frame recovery of one single REP message. -/
theorem recover_single (ch : ℤ) (k v : String)
    (hk : cleanValB k = true) (hv : cleanValB v = true) :
    recoverMsgs (mkRep ch k v) = [mkRepCore ch k v] := by
  have h := recoverMsgs_join [mkRepCore ch k v] ?hclean
  case hclean =>
    intro b hb
    simp only [List.mem_singleton] at hb
    subst hb
    exact cleanValB_mkRepCore ch k v hk hv
  rw [show ([mkRepCore ch k v].map (fun b => b ++ " >")) = [mkRep ch k v] from rfl] at h
  rw [join_singleton] at h
  exact h

/-! ## Claim C4 -/

/-- C4: for a valid channel and a register present in the channel's state,
`GET channel register` returns exactly one `< REP channel register value >`
message whose value is the current Channel State value at the time of the
read: for the Shure receiver the battery-updated table's value; for the
P10T, the stored value for ordinary registers, and the freshly regenerated
stored value for the audio-level registers. -/
theorem get_register_returns_current_value
    (ssim : ShureSim) (elapsed : ℚ) (scmd scstr sparam sval : String) (sch : ℤ) (scs : SChan)
    (hstok : tokens scmd = ["GET", scstr, sparam])
    (hsch : pyInt scstr = some sch) (hs1 : 1 ≤ sch) (hs2 : sch ≤ (ssim.num_channels : ℤ))
    (hschan : alook ssim.channels sch.toNat = some scs)
    (hsall : ¬(sparam = "ALL"))
    (hslook : alook (scs.update_battery elapsed).regs sparam = some sval)
    (hsclean : regsCleanB scs.regs = true)
    (psim : P10TSim) (draw : ℕ × ℕ) (pcmd pcstr pparam pval : String) (pch : ℤ) (pcs : PChan)
    (hptok : tokens pcmd = ["GET", pcstr, pparam])
    (hpch : pyInt pcstr = some pch) (hp1 : 1 ≤ pch) (hp2 : pch ≤ (psim.num_channels : ℤ))
    (hpchan : alook psim.channels pch.toNat = some pcs)
    (hpall : ¬(pparam = "ALL"))
    (hpaud : ¬(pparam = "AUDIO_IN_LVL_L" ∨ pparam = "AUDIO_IN_LVL_R"))
    (hplook : alook pcs.regs pparam = some pval)
    (hpclean : regsCleanB pcs.regs = true)
    (pcmdL : String)
    (hptokL : tokens pcmdL = ["GET", pcstr, "AUDIO_IN_LVL_L"])
    (hpmemL : amem pcs.regs "AUDIO_IN_LVL_L" = true) :
    ((ssim.process_command elapsed scmd).response = some (mkRep sch sparam sval)
      ∧ recoverMsgs (mkRep sch sparam sval) = [mkRepCore sch sparam sval])
    ∧ ((psim.process_command draw pcmd).response = some (mkRep pch pparam pval)
      ∧ recoverMsgs (mkRep pch pparam pval) = [mkRepCore pch pparam pval])
    ∧ ((psim.process_command draw pcmdL).response
        = some (mkRep pch "AUDIO_IN_LVL_L" (natToStr draw.1))
      ∧ alook ((pcs.generate_audio_levels draw).2).regs "AUDIO_IN_LVL_L"
          = some (natToStr draw.1)) := by
  have hsregs : (ssim.get_state sch.toNat elapsed).1 = (scs.update_battery elapsed).regs := by
    rw [shure_get_state_present ssim scs sch.toNat elapsed hschan]
  have hscl := regsClean_mem _ (regsCleanB_update_battery scs elapsed hsclean)
    (sparam, sval) (mem_of_alook _ _ _ hslook)
  have hpcl := regsClean_mem _ hpclean (pparam, pval) (mem_of_alook _ _ _ hplook)
  have hpregs : psim.get_state pch.toNat = pcs.regs :=
    p10t_get_state_present psim pcs pch.toNat hpchan
  have hLlook : alook ((pcs.generate_audio_levels draw).2).regs "AUDIO_IN_LVL_L"
      = some (natToStr draw.1) := by
    unfold PChan.generate_audio_levels
    dsimp only
    rw [alook_aset_ne _ _ _ _ (by decide), alook_aset_self]
  refine ⟨⟨?_, recover_single _ _ _ hscl.1 hscl.2⟩,
    ⟨?_, recover_single _ _ _ hpcl.1 hpcl.2⟩, ⟨?_, hLlook⟩⟩
  · rw [shure_get_param ssim elapsed scmd scstr sparam sch hstok hsch hs1 hs2 hsall]
    rw [hsregs, hslook]
  · rw [p10t_get_param psim draw pcmd pcstr pparam pch hptok hpch hp1 hp2 hpall]
    rw [hpregs]
    rw [if_pos (by unfold amem; rw [hplook]; rfl)]
    rw [if_neg hpaud]
    rw [hplook]
    rfl
  · rw [p10t_get_param psim draw pcmdL pcstr "AUDIO_IN_LVL_L" pch hptokL hpch hp1 hp2
      (by decide)]
    rw [hpregs]
    rw [if_pos hpmemL]
    rw [if_pos (by left; rfl)]
    rw [p10t_regen_get_state psim pcs pch.toNat draw hpchan]
    rw [hLlook]
    rfl

/-- Witness for C4: concrete single-register reads on both simulators. -/
theorem get_register_returns_current_value_witness :
    (shureSimEx.process_command 0 "< GET 1 FREQUENCY >").response
      = some (mkRep 1 "FREQUENCY" "470125") :=
  (get_register_returns_current_value shureSimEx 0 "< GET 1 FREQUENCY >" "1" "FREQUENCY"
    "470125" 1 (SChan.init 1 shureDrawEx)
    (by decide) (by decide) (by decide) (by decide) (by decide) (by decide) (by decide)
    (by decide)
    p10tSimEx (7, 9) "< GET 1 CHAN_NAME >" "1" "CHAN_NAME" "IEM 1" 1
    (PChan.init 1 "active" 500000)
    (by decide) (by decide) (by decide) (by decide) (by decide) (by decide) (by decide)
    (by decide) (by decide)
    "< GET 1 AUDIO_IN_LVL_L >" (by decide) (by decide)).1.1

theorem join_pair (a b : String) : String.join [a, b] = a ++ b := by
  rw [String.join_eq]
  show String.mk (a.data ++ (b.data ++ [])) = a ++ b
  rw [List.append_nil]
  rfl

/-- Build `cleanValB` from its four components. -/
theorem cleanValB_build (s : String) (hne : ¬(s.toList = []))
    (hgt : ∀ c ∈ s.toList, ¬(c = '>'))
    (hh : pyIsSpace (s.toList.headD 'x') = false)
    (hl : pyIsSpace (s.toList.getLastD 'x') = false) : cleanValB s = true := by
  simp only [cleanValB, Bool.and_eq_true, Bool.not_eq_true', decide_eq_false_iff_not]
  refine ⟨⟨⟨hne, ?_⟩, hh⟩, hl⟩
  unfold noGtB
  rw [List.all_eq_true]
  intro c hc
  simpa using hgt c hc

theorem getLastD_append_right (l₁ l₂ : List Char) (d : Char) (h : ¬(l₂ = [])) :
    (l₁ ++ l₂).getLastD d = l₂.getLastD d := by
  rw [List.getLastD_eq_getLast?, List.getLastD_eq_getLast?, List.getLast?_append]
  cases hl : l₂.getLast? with
  | none => exact absurd (List.getLast?_eq_none_iff.mp hl) h
  | some c => rfl

theorem cleanValB_sampleCore (ch : ℕ) (ant : String) (rf audio : ℕ)
    (hant : noGtB ant = true) : cleanValB (sampleCore ch ant rf audio) = true := by
  have hdata : (sampleCore ch ant rf audio).toList
      = "< SAMPLE ".toList ++ (natToStr ch).toList ++ " ALL ".toList ++ ant.toList
          ++ " ".toList ++ (padZero 3 rf).toList ++ " ".toList ++ (padZero 3 audio).toList := by
    unfold sampleCore
    simp [String.toList, String.data_append]
  apply cleanValB_build
  · rw [hdata]
    simp
  · intro c hc
    rw [hdata] at hc
    simp only [List.append_assoc, List.mem_append] at hc
    have hlit1 : ∀ x ∈ "< SAMPLE ".toList, ¬(x = '>') := by decide
    have hlit2 : ∀ x ∈ " ALL ".toList, ¬(x = '>') := by decide
    have hlit3 : ∀ x ∈ " ".toList, ¬(x = '>') := by decide
    unfold noGtB at hant
    rw [List.all_eq_true] at hant
    rcases hc with h1 | h1 | h1 | h1 | h1 | h1 | h1 | h1
    · exact hlit1 c h1
    · exact (natToStr_chars ch c h1).1
    · exact hlit2 c h1
    · simpa using hant c h1
    · exact hlit3 c h1
    · exact (padZero_chars 3 rf c h1).1
    · exact hlit3 c h1
    · exact (padZero_chars 3 audio c h1).1
  · rw [hdata]
    rfl
  · rw [hdata]
    simp only [List.append_assoc]
    rw [show "< SAMPLE ".toList ++ ((natToStr ch).toList ++ (" ALL ".toList ++ (ant.toList
        ++ (" ".toList ++ ((padZero 3 rf).toList ++ (" ".toList
        ++ (padZero 3 audio).toList))))))
      = ("< SAMPLE ".toList ++ (natToStr ch).toList ++ " ALL ".toList ++ ant.toList
          ++ " ".toList ++ (padZero 3 rf).toList ++ " ".toList) ++ (padZero 3 audio).toList
      from by simp]
    rw [getLastD_append_right _ _ _ (padZero_ne_nil 3 audio)]
    exact (padZero_chars 3 audio _ (getLastD_mem _ _ (padZero_ne_nil 3 audio))).2

theorem cleanValB_p10tLeftCore (ch lvl : ℕ) : cleanValB (p10tLeftCore ch lvl) = true := by
  have hdata : (p10tLeftCore ch lvl).toList
      = "< REP ".toList ++ (natToStr ch).toList ++ " AUDIO_IN_LVL_L ".toList
          ++ (natToStr lvl).toList := by
    unfold p10tLeftCore
    simp [String.toList, String.data_append]
  apply cleanValB_build
  · rw [hdata]
    simp
  · intro c hc
    rw [hdata] at hc
    simp only [List.append_assoc, List.mem_append] at hc
    have hlit1 : ∀ x ∈ "< REP ".toList, ¬(x = '>') := by decide
    have hlit2 : ∀ x ∈ " AUDIO_IN_LVL_L ".toList, ¬(x = '>') := by decide
    rcases hc with h1 | h1 | h1 | h1
    · exact hlit1 c h1
    · exact (natToStr_chars ch c h1).1
    · exact hlit2 c h1
    · exact (natToStr_chars lvl c h1).1
  · rw [hdata]
    rfl
  · rw [hdata]
    simp only [List.append_assoc]
    rw [show "< REP ".toList ++ ((natToStr ch).toList ++ (" AUDIO_IN_LVL_L ".toList
          ++ (natToStr lvl).toList))
      = ("< REP ".toList ++ (natToStr ch).toList ++ " AUDIO_IN_LVL_L ".toList)
          ++ (natToStr lvl).toList from by simp]
    rw [getLastD_append_right _ _ _ (natToStr_ne_nil lvl)]
    exact (natToStr_chars lvl _ (getLastD_mem _ _ (natToStr_ne_nil lvl))).2

theorem cleanValB_p10tRightCore (ch lvl : ℕ) : cleanValB (p10tRightCore ch lvl) = true := by
  have hdata : (p10tRightCore ch lvl).toList
      = "< REP ".toList ++ (natToStr ch).toList ++ " AUDIO_IN_LVL_R ".toList
          ++ (natToStr lvl).toList := by
    unfold p10tRightCore
    simp [String.toList, String.data_append]
  apply cleanValB_build
  · rw [hdata]
    simp
  · intro c hc
    rw [hdata] at hc
    simp only [List.append_assoc, List.mem_append] at hc
    have hlit1 : ∀ x ∈ "< REP ".toList, ¬(x = '>') := by decide
    have hlit2 : ∀ x ∈ " AUDIO_IN_LVL_R ".toList, ¬(x = '>') := by decide
    rcases hc with h1 | h1 | h1 | h1
    · exact hlit1 c h1
    · exact (natToStr_chars ch c h1).1
    · exact hlit2 c h1
    · exact (natToStr_chars lvl c h1).1
  · rw [hdata]
    rfl
  · rw [hdata]
    simp only [List.append_assoc]
    rw [show "< REP ".toList ++ ((natToStr ch).toList ++ (" AUDIO_IN_LVL_R ".toList
          ++ (natToStr lvl).toList))
      = ("< REP ".toList ++ (natToStr ch).toList ++ " AUDIO_IN_LVL_R ".toList)
          ++ (natToStr lvl).toList from by simp]
    rw [getLastD_append_right _ _ _ (natToStr_ne_nil lvl)]
    exact (natToStr_chars lvl _ (getLastD_mem _ _ (natToStr_ne_nil lvl))).2

/-! ## Claim C7 -/

/-- C7: the metering message shape is device-family specific: on each tick
the Shure receiver emits exactly one combined
`< SAMPLE channel ALL antenna rf audio >` message carrying antenna state,
RF level and audio level together (one recovered message), while the P10T
stereo transmitter emits exactly two sequential REP messages, left
(`AUDIO_IN_LVL_L`) then right (`AUDIO_IN_LVL_R`). -/
theorem metering_tick_message_shape
    (ssim : ShureSim) (ch : ℕ) (cs : SChan) (d : SampleDraw)
    (hchan : alook ssim.channels ch = some cs)
    (hant : noGtB ((cs.get_sample_values d).1.1) = true)
    (psim : P10TSim) (pch : ℕ) (pcs : PChan) (draw : ℕ × ℕ)
    (hpchan : alook psim.channels pch = some pcs) :
    ((ssim.generate_sample ch d).1
        = sampleCore ch (cs.get_sample_values d).1.1
            ((cs.get_sample_values d).1.2.1).toNat ((cs.get_sample_values d).1.2.2) ++ " >"
      ∧ recoverMsgs (ssim.generate_sample ch d).1
          = [sampleCore ch (cs.get_sample_values d).1.1
              ((cs.get_sample_values d).1.2.1).toNat ((cs.get_sample_values d).1.2.2)])
    ∧ ((psim.generate_meter_messages pch draw).1
        = (p10tLeftCore pch draw.1 ++ " >") ++ (p10tRightCore pch draw.2 ++ " >")
      ∧ recoverMsgs (psim.generate_meter_messages pch draw).1
          = [p10tLeftCore pch draw.1, p10tRightCore pch draw.2]) := by
  have hse : (ssim.generate_sample ch d).1
      = sampleCore ch (cs.get_sample_values d).1.1
          ((cs.get_sample_values d).1.2.1).toNat ((cs.get_sample_values d).1.2.2) ++ " >" := by
    unfold ShureSim.generate_sample
    rw [hchan]
    rfl
  have hsr : recoverMsgs (sampleCore ch (cs.get_sample_values d).1.1
      ((cs.get_sample_values d).1.2.1).toNat ((cs.get_sample_values d).1.2.2) ++ " >")
      = [sampleCore ch (cs.get_sample_values d).1.1
          ((cs.get_sample_values d).1.2.1).toNat ((cs.get_sample_values d).1.2.2)] := by
    have h := recoverMsgs_join [sampleCore ch (cs.get_sample_values d).1.1
        ((cs.get_sample_values d).1.2.1).toNat ((cs.get_sample_values d).1.2.2)] ?hc
    case hc =>
      intro b hb
      simp only [List.mem_singleton] at hb
      subst hb
      exact cleanValB_sampleCore _ _ _ _ hant
    rw [show ([sampleCore ch (cs.get_sample_values d).1.1
        ((cs.get_sample_values d).1.2.1).toNat ((cs.get_sample_values d).1.2.2)].map
          (fun b => b ++ " >"))
        = [sampleCore ch (cs.get_sample_values d).1.1
            ((cs.get_sample_values d).1.2.1).toNat ((cs.get_sample_values d).1.2.2) ++ " >"]
      from rfl, join_singleton] at h
    exact h
  have hpe : (psim.generate_meter_messages pch draw).1
      = (p10tLeftCore pch draw.1 ++ " >") ++ (p10tRightCore pch draw.2 ++ " >") := by
    unfold P10TSim.generate_meter_messages
    rw [hpchan]
    apply String.ext
    simp [p10tLeftCore, p10tRightCore, PChan.generate_audio_levels, String.data_append]
  have hpr : recoverMsgs
      ((p10tLeftCore pch draw.1 ++ " >") ++ (p10tRightCore pch draw.2 ++ " >"))
      = [p10tLeftCore pch draw.1, p10tRightCore pch draw.2] := by
    have h := recoverMsgs_join [p10tLeftCore pch draw.1, p10tRightCore pch draw.2] ?hc2
    case hc2 =>
      intro b hb
      rcases List.mem_cons.mp hb with h1 | h1
      · subst h1
        exact cleanValB_p10tLeftCore _ _
      · simp only [List.mem_singleton] at h1
        subst h1
        exact cleanValB_p10tRightCore _ _
    rw [show ([p10tLeftCore pch draw.1, p10tRightCore pch draw.2].map (fun b => b ++ " >"))
        = [p10tLeftCore pch draw.1 ++ " >", p10tRightCore pch draw.2 ++ " >"] from rfl,
      join_pair] at h
    exact h
  exact ⟨⟨hse, by rw [hse]; exact hsr⟩, ⟨hpe, by rw [hpe]; exact hpr⟩⟩

/-- Witness for C7: a concrete tick on both example devices. -/
theorem metering_tick_message_shape_witness :
    (p10tSimEx.generate_meter_messages 1 (123, 456)).1
      = (p10tLeftCore 1 123 ++ " >") ++ (p10tRightCore 1 456 ++ " >") :=
  (metering_tick_message_shape shureSimEx 1 (SChan.init 1 shureDrawEx) ⟨true, 3, -4, 22⟩
    (by decide) (by decide)
    p10tSimEx 1 (PChan.init 1 "active" 500000) (123, 456) (by decide)).2.1

/-! ## Claim C8 -/

/-- C8 counterexample: on the P10T simulator, a SET whose parameter is not
in the register set still answers `< REP ... >` but does NOT replace (or
create) the addressed register — the register table is unchanged, refuting
"the addressed register is replaced wholesale with that value" as stated
for every SET with a valid channel. -/
theorem set_unknown_register_not_replaced_cex :
    (p10tSimEx.process_command (0, 0) "< SET 1 NOPE hello >").response
        = some (mkRep 1 "NOPE" "hello")
    ∧ alook ((p10tSimEx.process_command (0, 0) "< SET 1 NOPE hello >").sim.get_state 1)
        "NOPE" = none := by
  constructor
  · decide
  · decide

/-- C8 (amended): for every SET command with a valid channel, at least 4
tokens, and a parameter other than METER_RATE that is present in the
channel's register table, the applied value is the remainder of the line
rejoined with single spaces; the addressed register is replaced wholesale
with that value; and exactly one `< REP channel param value >` response
carrying that same value is produced.  (The Shure simulator also accepts
parameters not in the table, creating them — see the companion claim about
unknown registers.) -/
theorem set_replaces_register_and_echoes
    (ssim : ShureSim) (elapsed : ℚ) (scmd scstr sparam : String) (srest : List String)
    (sch : ℤ) (scs : SChan)
    (hstok : tokens scmd = "SET" :: scstr :: sparam :: srest) (hsrest : ¬(srest = []))
    (hsch : pyInt scstr = some sch) (hs1 : 1 ≤ sch) (hs2 : sch ≤ (ssim.num_channels : ℤ))
    (hsmr : ¬(sparam = "METER_RATE"))
    (hschan : alook ssim.channels sch.toNat = some scs)
    (hsparamcl : cleanValB sparam = true)
    (hsvalcl : cleanValB (String.intercalate " " srest) = true)
    (psim : P10TSim) (draw : ℕ × ℕ) (pcmd pcstr pparam : String) (prest : List String)
    (pch : ℤ) (pcs : PChan)
    (hptok : tokens pcmd = "SET" :: pcstr :: pparam :: prest) (hprest : ¬(prest = []))
    (hpch : pyInt pcstr = some pch) (hp1 : 1 ≤ pch) (hp2 : pch ≤ (psim.num_channels : ℤ))
    (hpmr : ¬(pparam = "METER_RATE"))
    (hpchan : alook psim.channels pch.toNat = some pcs)
    (hppres : amem pcs.regs pparam = true)
    (hpparamcl : cleanValB pparam = true)
    (hpvalcl : cleanValB (String.intercalate " " prest) = true) :
    ((ssim.process_command elapsed scmd).response
        = some (mkRep sch sparam (String.intercalate " " srest))
      ∧ alook (ssim.process_command elapsed scmd).sim.channels sch.toNat
          = some ({ scs.update_battery elapsed with
              regs := aset (scs.update_battery elapsed).regs sparam
                (String.intercalate " " srest) })
      ∧ alook (aset (scs.update_battery elapsed).regs sparam
            (String.intercalate " " srest)) sparam
          = some (String.intercalate " " srest)
      ∧ recoverMsgs (mkRep sch sparam (String.intercalate " " srest))
          = [mkRepCore sch sparam (String.intercalate " " srest)])
    ∧ ((psim.process_command draw pcmd).response
        = some (mkRep pch pparam (String.intercalate " " prest))
      ∧ alook (psim.process_command draw pcmd).sim.channels pch.toNat
          = some ({ pcs with
              regs := aset pcs.regs pparam (String.intercalate " " prest) })
      ∧ alook (aset pcs.regs pparam (String.intercalate " " prest)) pparam
          = some (String.intercalate " " prest)
      ∧ recoverMsgs (mkRep pch pparam (String.intercalate " " prest))
          = [mkRepCore pch pparam (String.intercalate " " prest)]) := by
  have hsred := shure_set_param ssim elapsed scmd scstr sparam srest sch hstok hsrest
    hsch hs1 hs2 hsmr
  rw [shure_get_state_present ssim scs sch.toNat elapsed hschan] at hsred
  have hsc2 : alook (aset ssim.channels sch.toNat (scs.update_battery elapsed)) sch.toNat
      = some (scs.update_battery elapsed) := alook_aset_self _ _ _
  rw [hsc2] at hsred
  have hpred := p10t_set_param psim draw pcmd pcstr pparam prest pch hptok hprest
    hpch hp1 hp2 hpmr
  rw [p10t_get_state_present psim pcs pch.toNat hpchan] at hpred
  rw [hppres, if_pos rfl] at hpred
  rw [hpchan] at hpred
  refine ⟨⟨?_, ?_, alook_aset_self _ _ _,
      recover_single _ _ _ hsparamcl hsvalcl⟩,
    ⟨?_, ?_, alook_aset_self _ _ _,
      recover_single _ _ _ hpparamcl hpvalcl⟩⟩
  · rw [hsred]
  · rw [hsred]
    show alook (aset (aset ssim.channels sch.toNat (scs.update_battery elapsed)) sch.toNat
      ({ scs.update_battery elapsed with
          regs := aset (scs.update_battery elapsed).regs sparam
            (String.intercalate " " srest) })) sch.toNat = _
    rw [alook_aset_self]
  · rw [hpred]
  · rw [hpred]
    show alook (aset psim.channels pch.toNat
      ({ pcs with regs := aset pcs.regs pparam (String.intercalate " " prest) })) pch.toNat = _
    rw [alook_aset_self]

/-- Witness for C8 (amended): concrete SETs of present registers. -/
theorem set_replaces_register_and_echoes_witness :
    (shureSimEx.process_command 0 "< SET 1 CHAN_NAME Lead Vox >").response
      = some (mkRep 1 "CHAN_NAME" (String.intercalate " " ["Lead", "Vox"])) :=
  (set_replaces_register_and_echoes shureSimEx 0 "< SET 1 CHAN_NAME Lead Vox >" "1"
    "CHAN_NAME" ["Lead", "Vox"] 1 (SChan.init 1 shureDrawEx)
    (by decide) (by decide) (by decide) (by decide) (by decide) (by decide) (by decide)
    (by decide) (by decide)
    p10tSimEx (0, 0) "< SET 1 CHAN_NAME X >" "1" "CHAN_NAME" ["X"] 1
    (PChan.init 1 "active" 500000)
    (by decide) (by decide) (by decide) (by decide) (by decide) (by decide) (by decide)
    (by decide) (by decide) (by decide)).1.1

/-! ## Claim C10 -/

/-- C10: a SET with a valid channel, at least 4 tokens, and a parameter
other than METER_RATE that is NOT in the channel's register table still
returns the `< REP channel param value >` response in both simulators;
afterwards the Shure simulator's register table contains the new register
appended with the written value (so a subsequent GET ALL includes it),
while the P10T simulator is left entirely unchanged. -/
theorem set_unknown_register_divergence
    (ssim : ShureSim) (elapsed : ℚ) (scmd scstr sparam : String) (srest : List String)
    (sch : ℤ) (scs : SChan)
    (hstok : tokens scmd = "SET" :: scstr :: sparam :: srest) (hsrest : ¬(srest = []))
    (hsch : pyInt scstr = some sch) (hs1 : 1 ≤ sch) (hs2 : sch ≤ (ssim.num_channels : ℤ))
    (hsmr : ¬(sparam = "METER_RATE"))
    (hschan : alook ssim.channels sch.toNat = some scs)
    (hsabs : alook (scs.update_battery elapsed).regs sparam = none)
    (psim : P10TSim) (draw : ℕ × ℕ) (pcmd pcstr pparam : String) (prest : List String)
    (pch : ℤ) (pcs : PChan)
    (hptok : tokens pcmd = "SET" :: pcstr :: pparam :: prest) (hprest : ¬(prest = []))
    (hpch : pyInt pcstr = some pch) (hp1 : 1 ≤ pch) (hp2 : pch ≤ (psim.num_channels : ℤ))
    (hpmr : ¬(pparam = "METER_RATE"))
    (hpchan : alook psim.channels pch.toNat = some pcs)
    (hpabs : alook pcs.regs pparam = none) :
    ((ssim.process_command elapsed scmd).response
        = some (mkRep sch sparam (String.intercalate " " srest))
      ∧ alook (ssim.process_command elapsed scmd).sim.channels sch.toNat
          = some ({ scs.update_battery elapsed with
              regs := (scs.update_battery elapsed).regs
                ++ [(sparam, String.intercalate " " srest)] })
      ∧ alook ((scs.update_battery elapsed).regs
            ++ [(sparam, String.intercalate " " srest)]) sparam
          = some (String.intercalate " " srest))
    ∧ ((psim.process_command draw pcmd).response
        = some (mkRep pch pparam (String.intercalate " " prest))
      ∧ (psim.process_command draw pcmd).sim = psim) := by
  have hsred := shure_set_param ssim elapsed scmd scstr sparam srest sch hstok hsrest
    hsch hs1 hs2 hsmr
  rw [shure_get_state_present ssim scs sch.toNat elapsed hschan] at hsred
  have hsc2 : alook (aset ssim.channels sch.toNat (scs.update_battery elapsed)) sch.toNat
      = some (scs.update_battery elapsed) := alook_aset_self _ _ _
  rw [hsc2] at hsred
  dsimp only at hsred
  rw [aset_absent _ _ _ hsabs] at hsred
  have hpred := p10t_set_param psim draw pcmd pcstr pparam prest pch hptok hprest
    hpch hp1 hp2 hpmr
  rw [p10t_get_state_present psim pcs pch.toNat hpchan] at hpred
  have hpmem : amem pcs.regs pparam = false := by
    unfold amem
    rw [hpabs]
    rfl
  rw [hpmem] at hpred
  rw [if_neg (by simp)] at hpred
  refine ⟨⟨?_, ?_, ?_⟩, ⟨?_, ?_⟩⟩
  · rw [hsred]
  · rw [hsred]
    show alook (aset (aset ssim.channels sch.toNat (scs.update_battery elapsed)) sch.toNat
      ({ scs.update_battery elapsed with
          regs := (scs.update_battery elapsed).regs
            ++ [(sparam, String.intercalate " " srest)] })) sch.toNat = _
    rw [alook_aset_self]
  · rw [alook_append_none _ _ _ hsabs]
    show (if sparam = sparam then some (String.intercalate " " srest) else none) = _
    rw [if_pos rfl]
  · rw [hpred]
  · rw [hpred]

/-- Witness for C10: a concrete SET of a fresh register name. -/
theorem set_unknown_register_divergence_witness :
    (p10tSimEx.process_command (0, 0) "< SET 1 FRESH v >").sim = p10tSimEx :=
  (set_unknown_register_divergence shureSimEx 0 "< SET 1 FRESH v >" "1" "FRESH" ["v"] 1
    (SChan.init 1 shureDrawEx)
    (by decide) (by decide) (by decide) (by decide) (by decide) (by decide) (by decide)
    (by decide)
    p10tSimEx (0, 0) "< SET 1 FRESH v >" "1" "FRESH" ["v"] 1 (PChan.init 1 "active" 500000)
    (by decide) (by decide) (by decide) (by decide) (by decide) (by decide) (by decide)
    (by decide)).2.2


/-- Auxiliary for the no-op characterization: the Shure simulator's
`process_command` returns no response exactly when the command falls in one
of the spec's listed cases or is a GET for an unknown register. -/
theorem shure_silent_iff_aux (sim : ShureSim) (elapsed : ℚ) (cmd : String) :
    (sim.process_command elapsed cmd).response = none ↔
      (specListedNoOp sim.num_channels cmd = true ∨
        getUnknownParam (shureCmdRegs sim elapsed cmd) cmd = true) := by
  unfold ShureSim.process_command specListedNoOp getUnknownParam shureCmdRegs shureStateRegs
  dsimp only
  by_cases h3 : (tokens cmd).length < 3
  · rw [if_pos h3]
    refine iff_of_true rfl (Or.inl ?_)
    rw [decide_eq_true h3, Bool.true_or]
  · rw [if_neg h3]
    cases hint : pyInt ((tokens cmd).getD 1 "") with
    | none =>
      dsimp only
      exact iff_of_true rfl (Or.inl (Bool.or_true _))
    | some channel =>
      dsimp only
      by_cases hrange : channel < 1 ∨ (sim.num_channels : ℤ) < channel
      · rw [if_pos hrange]
        refine iff_of_true rfl (Or.inl ?_)
        simp only [Bool.or_eq_true, Bool.and_eq_true, decide_eq_true_eq,
          Bool.not_eq_true', decide_eq_false_iff_not, Option.isNone_iff_eq_none]
        exact Or.inr (Or.inl (Or.inl (Or.inl hrange)))
      · rw [if_neg hrange]
        by_cases hget : (tokens cmd).getD 0 "" = "GET"
        · rw [if_pos hget]
          have hnset : ¬((tokens cmd).getD 0 "" = "SET") := by rw [hget]; decide
          by_cases hall : (tokens cmd).getD 2 "" = "ALL"
          · rw [if_pos hall]
            refine iff_of_false (by simp) ?_
            rintro (hA | hB)
            · simp only [Bool.or_eq_true, Bool.and_eq_true, decide_eq_true_eq,
                Bool.not_eq_true', decide_eq_false_iff_not,
                Option.isNone_iff_eq_none] at hA
              rcases hA with h | (((h | ⟨hg, _⟩) | ⟨hs, _⟩) | ⟨⟨⟨hs, _⟩, _⟩, _⟩)
              · exact h3 h
              · exact hrange h
              · exact hg hget
              · exact hnset hs
              · exact hnset hs
            · simp only [Bool.and_eq_true, Bool.not_eq_true', decide_eq_true_eq,
                decide_eq_false_iff_not] at hB
              exact hB.1.2 hall
          · rw [if_neg hall]
            cases hlook : alook (sim.get_state channel.toNat elapsed).1
                ((tokens cmd).getD 2 "") with
            | some v =>
              dsimp only
              refine iff_of_false (by simp) ?_
              rintro (hA | hB)
              · simp only [Bool.or_eq_true, Bool.and_eq_true, decide_eq_true_eq,
                  Bool.not_eq_true', decide_eq_false_iff_not,
                  Option.isNone_iff_eq_none] at hA
                rcases hA with h | (((h | ⟨hg, _⟩) | ⟨hs, _⟩) | ⟨⟨⟨hs, _⟩, _⟩, _⟩)
                · exact h3 h
                · exact hrange h
                · exact hg hget
                · exact hnset hs
                · exact hnset hs
              · simp only [Bool.and_eq_true, Bool.not_eq_true', decide_eq_true_eq,
                  decide_eq_false_iff_not] at hB
                have hmem := hB.2
                unfold amem at hmem
                rw [hlook] at hmem
                simp at hmem
            | none =>
              dsimp only
              refine iff_of_true rfl (Or.inr ?_)
              simp only [Bool.and_eq_true, Bool.not_eq_true', decide_eq_true_eq,
                decide_eq_false_iff_not]
              refine ⟨⟨hget, hall⟩, ?_⟩
              unfold amem
              rw [hlook]
              rfl
        · rw [if_neg hget]
          by_cases hset : (tokens cmd).getD 0 "" = "SET"
          · rw [if_pos hset]
            by_cases h4 : 4 ≤ (tokens cmd).length
            · rw [if_pos h4]
              by_cases hmr : (tokens cmd).getD 2 "" = "METER_RATE"
              · rw [if_pos hmr]
                cases hv : pyInt (String.intercalate " " ((tokens cmd).drop 3)) with
                | some rate =>
                  dsimp only
                  refine iff_of_false (by simp) ?_
                  rintro (hA | hB)
                  · simp only [Bool.or_eq_true, Bool.and_eq_true, decide_eq_true_eq,
                      Bool.not_eq_true', decide_eq_false_iff_not,
                      Option.isNone_iff_eq_none] at hA
                    rcases hA with h | (((h | ⟨_, hs⟩) | ⟨_, hlt⟩) | ⟨⟨⟨_, _⟩, _⟩, hvn⟩)
                    · exact h3 h
                    · exact hrange h
                    · exact hs hset
                    · exact absurd hlt (by omega)
                    · exact Option.noConfusion hvn
                  · simp only [Bool.and_eq_true, Bool.not_eq_true', decide_eq_true_eq,
                      decide_eq_false_iff_not] at hB
                    exact hget hB.1.1
                | none =>
                  dsimp only
                  refine iff_of_true rfl (Or.inl ?_)
                  simp only [Bool.or_eq_true, Bool.and_eq_true, decide_eq_true_eq,
                    Bool.not_eq_true', decide_eq_false_iff_not,
                    Option.isNone_iff_eq_none]
                  exact Or.inr (Or.inr ⟨⟨⟨hset, hmr⟩, h4⟩, trivial⟩)
              · rw [if_neg hmr]
                refine iff_of_false (by simp) ?_
                rintro (hA | hB)
                · simp only [Bool.or_eq_true, Bool.and_eq_true, decide_eq_true_eq,
                    Bool.not_eq_true', decide_eq_false_iff_not,
                    Option.isNone_iff_eq_none] at hA
                  rcases hA with h | (((h | ⟨_, hs⟩) | ⟨_, hlt⟩) | ⟨⟨⟨_, hm⟩, _⟩, _⟩)
                  · exact h3 h
                  · exact hrange h
                  · exact hs hset
                  · exact absurd hlt (by omega)
                  · exact hmr hm
                · simp only [Bool.and_eq_true, Bool.not_eq_true', decide_eq_true_eq,
                    decide_eq_false_iff_not] at hB
                  exact hget hB.1.1
            · rw [if_neg h4]
              refine iff_of_true rfl (Or.inl ?_)
              simp only [Bool.or_eq_true, Bool.and_eq_true, decide_eq_true_eq,
                Bool.not_eq_true', decide_eq_false_iff_not, Option.isNone_iff_eq_none]
              exact Or.inr (Or.inl (Or.inr ⟨hset, by omega⟩))
          · rw [if_neg hset]
            refine iff_of_true rfl (Or.inl ?_)
            simp only [Bool.or_eq_true, Bool.and_eq_true, decide_eq_true_eq,
              Bool.not_eq_true', decide_eq_false_iff_not, Option.isNone_iff_eq_none]
            exact Or.inr (Or.inl (Or.inl (Or.inr ⟨hget, hset⟩)))

/-- Auxiliary for the no-op characterization: the P10T simulator's
`process_command` returns no response exactly when the command falls in one
of the spec's listed cases or is a GET for an unknown register. -/
theorem p10t_silent_iff_aux (sim : P10TSim) (draw : ℕ × ℕ) (cmd : String) :
    (sim.process_command draw cmd).response = none ↔
      (specListedNoOp sim.num_channels cmd = true ∨
        getUnknownParam (p10tCmdRegs sim cmd) cmd = true) := by
  unfold P10TSim.process_command specListedNoOp getUnknownParam p10tCmdRegs
  dsimp only
  by_cases h3 : (tokens cmd).length < 3
  · rw [if_pos h3]
    refine iff_of_true rfl (Or.inl ?_)
    rw [decide_eq_true h3, Bool.true_or]
  · rw [if_neg h3]
    cases hint : pyInt ((tokens cmd).getD 1 "") with
    | none =>
      dsimp only
      exact iff_of_true rfl (Or.inl (Bool.or_true _))
    | some channel =>
      dsimp only
      by_cases hrange : channel < 1 ∨ (sim.num_channels : ℤ) < channel
      · rw [if_pos hrange]
        refine iff_of_true rfl (Or.inl ?_)
        simp only [Bool.or_eq_true, Bool.and_eq_true, decide_eq_true_eq,
          Bool.not_eq_true', decide_eq_false_iff_not, Option.isNone_iff_eq_none]
        exact Or.inr (Or.inl (Or.inl (Or.inl hrange)))
      · rw [if_neg hrange]
        by_cases hget : (tokens cmd).getD 0 "" = "GET"
        · rw [if_pos hget]
          have hnset : ¬((tokens cmd).getD 0 "" = "SET") := by rw [hget]; decide
          by_cases hall : (tokens cmd).getD 2 "" = "ALL"
          · rw [if_pos hall]
            refine iff_of_false (by simp) ?_
            rintro (hA | hB)
            · simp only [Bool.or_eq_true, Bool.and_eq_true, decide_eq_true_eq,
                Bool.not_eq_true', decide_eq_false_iff_not,
                Option.isNone_iff_eq_none] at hA
              rcases hA with h | (((h | ⟨hg, _⟩) | ⟨hs, _⟩) | ⟨⟨⟨hs, _⟩, _⟩, _⟩)
              · exact h3 h
              · exact hrange h
              · exact hg hget
              · exact hnset hs
              · exact hnset hs
            · simp only [Bool.and_eq_true, Bool.not_eq_true', decide_eq_true_eq,
                decide_eq_false_iff_not] at hB
              exact hB.1.2 hall
          · rw [if_neg hall]
            by_cases hmem : amem (sim.get_state channel.toNat)
                ((tokens cmd).getD 2 "") = true
            · rw [if_pos hmem]
              refine iff_of_false ?_ ?_
              · by_cases hlr : ((tokens cmd).getD 2 "" = "AUDIO_IN_LVL_L" ∨
                    (tokens cmd).getD 2 "" = "AUDIO_IN_LVL_R")
                · rw [if_pos hlr]
                  simp
                · rw [if_neg hlr]
                  simp
              · rintro (hA | hB)
                · simp only [Bool.or_eq_true, Bool.and_eq_true, decide_eq_true_eq,
                    Bool.not_eq_true', decide_eq_false_iff_not,
                    Option.isNone_iff_eq_none] at hA
                  rcases hA with h | (((h | ⟨hg, _⟩) | ⟨hs, _⟩) | ⟨⟨⟨hs, _⟩, _⟩, _⟩)
                  · exact h3 h
                  · exact hrange h
                  · exact hg hget
                  · exact hnset hs
                  · exact hnset hs
                · simp only [Bool.and_eq_true, Bool.not_eq_true', decide_eq_true_eq,
                    decide_eq_false_iff_not] at hB
                  rw [hB.2] at hmem
                  exact Bool.noConfusion hmem
            · rw [if_neg hmem]
              refine iff_of_true rfl (Or.inr ?_)
              simp only [Bool.and_eq_true, Bool.not_eq_true', decide_eq_true_eq,
                decide_eq_false_iff_not]
              refine ⟨⟨hget, hall⟩, ?_⟩
              cases h : amem (sim.get_state channel.toNat) ((tokens cmd).getD 2 "")
              · rfl
              · exact absurd h hmem
        · rw [if_neg hget]
          by_cases hset : (tokens cmd).getD 0 "" = "SET"
          · rw [if_pos hset]
            by_cases h4 : 4 ≤ (tokens cmd).length
            · rw [if_pos h4]
              by_cases hmr : (tokens cmd).getD 2 "" = "METER_RATE"
              · rw [if_pos hmr]
                cases hv : pyInt (String.intercalate " " ((tokens cmd).drop 3)) with
                | some rate =>
                  dsimp only
                  refine iff_of_false (by simp) ?_
                  rintro (hA | hB)
                  · simp only [Bool.or_eq_true, Bool.and_eq_true, decide_eq_true_eq,
                      Bool.not_eq_true', decide_eq_false_iff_not,
                      Option.isNone_iff_eq_none] at hA
                    rcases hA with h | (((h | ⟨_, hs⟩) | ⟨_, hlt⟩) | ⟨⟨⟨_, _⟩, _⟩, hvn⟩)
                    · exact h3 h
                    · exact hrange h
                    · exact hs hset
                    · exact absurd hlt (by omega)
                    · exact Option.noConfusion hvn
                  · simp only [Bool.and_eq_true, Bool.not_eq_true', decide_eq_true_eq,
                      decide_eq_false_iff_not] at hB
                    exact hget hB.1.1
                | none =>
                  dsimp only
                  refine iff_of_true rfl (Or.inl ?_)
                  simp only [Bool.or_eq_true, Bool.and_eq_true, decide_eq_true_eq,
                    Bool.not_eq_true', decide_eq_false_iff_not,
                    Option.isNone_iff_eq_none]
                  exact Or.inr (Or.inr ⟨⟨⟨hset, hmr⟩, h4⟩, trivial⟩)
              · rw [if_neg hmr]
                refine iff_of_false (by simp) ?_
                rintro (hA | hB)
                · simp only [Bool.or_eq_true, Bool.and_eq_true, decide_eq_true_eq,
                    Bool.not_eq_true', decide_eq_false_iff_not,
                    Option.isNone_iff_eq_none] at hA
                  rcases hA with h | (((h | ⟨_, hs⟩) | ⟨_, hlt⟩) | ⟨⟨⟨_, hm⟩, _⟩, _⟩)
                  · exact h3 h
                  · exact hrange h
                  · exact hs hset
                  · exact absurd hlt (by omega)
                  · exact hmr hm
                · simp only [Bool.and_eq_true, Bool.not_eq_true', decide_eq_true_eq,
                    decide_eq_false_iff_not] at hB
                  exact hget hB.1.1
            · rw [if_neg h4]
              refine iff_of_true rfl (Or.inl ?_)
              simp only [Bool.or_eq_true, Bool.and_eq_true, decide_eq_true_eq,
                Bool.not_eq_true', decide_eq_false_iff_not, Option.isNone_iff_eq_none]
              exact Or.inr (Or.inl (Or.inr ⟨hset, by omega⟩))
          · rw [if_neg hset]
            refine iff_of_true rfl (Or.inl ?_)
            simp only [Bool.or_eq_true, Bool.and_eq_true, decide_eq_true_eq,
              Bool.not_eq_true', decide_eq_false_iff_not, Option.isNone_iff_eq_none]
            exact Or.inr (Or.inl (Or.inl (Or.inr ⟨hget, hset⟩)))

/-- C2 counterexample: `< GET 1 NOPE >` passes every condition on the spec's
no-op list (3 tokens, numeric channel 1 in range, action GET), yet both
simulators silently drop it, because the parameter names no register. -/
theorem get_unknown_register_silent_cex :
    (shureSimEx.process_command 0 "< GET 1 NOPE >").response = none ∧
    (p10tSimEx.process_command (0, 0) "< GET 1 NOPE >").response = none ∧
    specListedNoOp 2 "< GET 1 NOPE >" = false := by decide

/-- C2 (amended): for every simulator state and every command string,
command processing produces no response and raises no error exactly when the
command falls in one of the spec's listed cases — fewer than 3 tokens,
non-numeric channel, channel outside 1..N, action other than GET and SET,
SET with fewer than 4 tokens, non-numeric value when the parameter is
METER_RATE — or in one further case the list misses: a GET whose parameter
is neither ALL nor a register present in the addressed channel's state as
the code reads it (battery-updated for the Shure simulator, the plain
register table for the P10T). -/
theorem silent_drop_characterization :
    (∀ (sim : ShureSim) (elapsed : ℚ) (cmd : String),
        (sim.process_command elapsed cmd).response = none ↔
          (specListedNoOp sim.num_channels cmd = true ∨
            getUnknownParam (shureCmdRegs sim elapsed cmd) cmd = true)) ∧
    (∀ (sim : P10TSim) (draw : ℕ × ℕ) (cmd : String),
        (sim.process_command draw cmd).response = none ↔
          (specListedNoOp sim.num_channels cmd = true ∨
            getUnknownParam (p10tCmdRegs sim cmd) cmd = true)) :=
  ⟨shure_silent_iff_aux, p10t_silent_iff_aux⟩

end Micboard
